import Mathlib

/-!
Verification of the Quartz video-processing backend against its
natural-language specification.

The development shallowly embeds the relevant parts of
`scripts/utils/video_helpers.py` and `scripts/video_api.py`:

* the frame loop of `stabilize_video` (frame emission schedule, save
  condition, file writes);
* the ffmpeg command lists built by the helpers, as plain string lists;
* the filesystem effects of the handlers, as a trace of operations over
  an association-list filesystem;
* the request models of `scripts/data_models.py` and the attribute
  lookup the stabilization handler performs on them;
* the mask geometry of the stabilization loop over the reals.

The VidStab library itself is not part of the repository sources; where
its behaviour decides a claim it is modelled from the specification
(sections 4.2 and 4.3), and such definitions say so in their doc
comments.
-/

/-! ### Part A: the stabilization frame loop

`stabilize_video` (video_helpers.py lines 138-246) feeds every frame of
the input (and then `None`) to `VidStab.stabilize_frame` with
`smoothing_window = 30`, and saves the returned stabilized frame only
when `frame_count >= smoothing_window` and
`frame_count - smoothing_window < len(stabilizer.transforms)`.
-/

/-- The smoothing window size fixed by the source
(`smoothing_window = 30`, video_helpers.py line 159). -/
def smoothing_window : Nat := 30

/-- What one call of `VidStab.stabilize_frame` returns at a given loop
iteration: a placeholder black frame during warmup, a stabilized frame
for a given source index, or nothing once all frames are flushed. -/
inductive StabOut where
  | black : StabOut
  | stab (src : Nat) : StabOut
  | done : StabOut
deriving DecidableEq, Repr

/-- Modelled from the spec: the emission schedule of
`VidStab.stabilize_frame` for an input of `N` frames, which is not part
of the repository sources.  Spec section 4.2: the smoothing window emits
with a fixed lag of `W` frames once `W` raw transforms have been
observed (STEADY), and after the input is exhausted it keeps emitting
for the remaining buffered transforms until the buffer is empty (DRAIN);
if STEADY is never reached nothing is emitted (section 4.3).  The black
placeholder frames during warmup match the comment at
video_helpers.py line 185. -/
def stabilize_frame_out (N i : Nat) : StabOut :=
  if N ≤ smoothing_window then
    if i < N then .black else .done
  else
    if i < smoothing_window then .black
    else if i < N + smoothing_window then .stab (i - smoothing_window)
    else .done

/-- Modelled from the spec: the length of `stabilizer.transforms` as
observed at loop iteration `i`, for an input of `N` frames.  Spec
section 3: one motion transform exists per consecutive frame pair, so
after the loop has read `i + 1` frames the history holds `i` transforms,
and it never exceeds `N - 1`. -/
def transforms_len (N i : Nat) : Nat := min i (N - 1)

/-- The save condition of the loop body (video_helpers.py lines
194-198): a frame file is written at iteration `i` exactly when the
stabilizer returned a frame, `frame_count >= smoothing_window`, and
`transform_index < len(stabilizer.transforms)`. -/
def iter_saved (N i : Nat) : Bool :=
  stabilize_frame_out N i != .done
    && decide (smoothing_window ≤ i)
    && decide (i - smoothing_window < transforms_len N i)

/-- The iterations of the loop at which a stabilized frame is written,
in order.  The loop runs until `stabilize_frame` returns `None`, which
happens no later than iteration `N + smoothing_window`. -/
def saved_iters (N : Nat) : List Nat :=
  (List.range (N + smoothing_window + 1)).filter (iter_saved N)

/-- The source frame indices of the written frames, in write order
(the frame written at iteration `i` is source frame
`i - smoothing_window`). -/
def saved_sources (N : Nat) : List Nat :=
  (saved_iters N).map (fun i => i - smoothing_window)

/-- The final value of `saved_frame_count` in `stabilize_video`. -/
def saved_frame_count (N : Nat) : Nat := (saved_iters N).length

/-- The timestamp of frame `idx` in a stream of `fps` frames per
second. -/
def frame_timestamp (fps : ℚ) (idx : Nat) : ℚ := idx / fps

theorem saved_iters_eq_of_le (N : Nat) (h : N ≤ smoothing_window) :
    saved_iters N = [] := by
  refine List.filter_eq_nil_iff.mpr ?_
  intro i _
  simp only [iter_saved, stabilize_frame_out, transforms_len, smoothing_window] at *
  by_cases hi : i < N
  · simp [h, hi]; omega
  · simp [h, hi]

theorem saved_frame_count_of_le (N : Nat) (h : N ≤ smoothing_window) :
    saved_frame_count N = 0 := by
  simp [saved_frame_count, saved_iters_eq_of_le N h]

theorem filter_range_between (a : Nat) :
    ∀ n b : Nat, b ≤ n → a ≤ b →
      (List.range n).filter (fun i => decide (a ≤ i) && decide (i < b))
        = List.range' a (b - a) := by
  intro n
  induction n with
  | zero =>
    intro b hbn hab
    have hb : b = 0 := by omega
    have ha : a = 0 := by omega
    subst hb; subst ha
    simp
  | succ n ih =>
    intro b hbn hab
    rw [List.range_succ, List.filter_append]
    by_cases hb : b ≤ n
    · rw [ih b hb hab]
      have h1 : (decide (a ≤ n) && decide (n < b)) = false := by
        simp only [Bool.and_eq_false_iff, decide_eq_false_iff_not]
        right; omega
      simp [h1]
    · have hb1 : b = n + 1 := by omega
      subst hb1
      by_cases ha : a ≤ n
      · have hcongr :
            (List.range n).filter (fun i => decide (a ≤ i) && decide (i < n + 1))
              = (List.range n).filter (fun i => decide (a ≤ i) && decide (i < n)) := by
          refine List.filter_congr ?_
          intro i hi
          have hin : i < n := List.mem_range.mp hi
          have h1 : decide (i < n + 1) = true := by simp; omega
          have h2 : decide (i < n) = true := by simp; omega
          rw [h1, h2]
        rw [hcongr, ih n (Nat.le_refl n) ha]
        have h1 : (decide (a ≤ n) && decide (n < n + 1)) = true := by
          simp [ha]
        rw [List.filter_singleton, h1]
        have hsucc : n + 1 - a = (n - a) + 1 := by omega
        rw [hsucc, List.range'_1_concat]
        have : a + (n - a) = n := by omega
        rw [this]
        rfl
      · have hnil : (List.range n).filter
            (fun i => decide (a ≤ i) && decide (i < n + 1)) = [] := by
          refine List.filter_eq_nil_iff.mpr ?_
          intro i hi
          have hin : i < n := List.mem_range.mp hi
          simp only [Bool.and_eq_true, decide_eq_true_eq, not_and]
          intro hai _
          omega
        have h1 : (decide (a ≤ n) && decide (n < n + 1)) = false := by
          simp only [Bool.and_eq_false_iff, decide_eq_false_iff_not]
          left; omega
        rw [hnil, List.filter_singleton, h1]
        have hb0 : n + 1 - a = 0 := by omega
        simp [hb0]

theorem iter_saved_iff (N : Nat) (hN : smoothing_window < N) (i : Nat) :
    iter_saved N i
      = (decide (smoothing_window ≤ i) && decide (i < N + smoothing_window - 1)) := by
  have h1 : ¬ (N ≤ smoothing_window) := by omega
  unfold iter_saved stabilize_frame_out transforms_len
  rw [if_neg h1]
  by_cases h2 : i < smoothing_window
  · rw [if_pos h2]
    have hle : decide (smoothing_window ≤ i) = false := by
      simp only [decide_eq_false_iff_not]
      omega
    simp [hle]
  · rw [if_neg h2]
    by_cases h3 : i < N + smoothing_window
    · rw [if_pos h3]
      have hne : (StabOut.stab (i - smoothing_window) != StabOut.done) = true := rfl
      rw [hne, Bool.true_and]
      congr 1
      apply decide_eq_decide.mpr
      simp only [smoothing_window] at *
      omega
    · rw [if_neg h3]
      have hne : (StabOut.done != StabOut.done) = false := rfl
      rw [hne, Bool.false_and, Bool.false_and]
      have hb : decide (i < N + smoothing_window - 1) = false := by
        simp only [decide_eq_false_iff_not]
        simp only [smoothing_window] at *
        omega
      rw [hb, Bool.and_false]

theorem saved_iters_eq (N : Nat) (hN : smoothing_window < N) :
    saved_iters N = List.range' smoothing_window (N - 1) := by
  unfold saved_iters
  have hcongr : (List.range (N + smoothing_window + 1)).filter (iter_saved N)
      = (List.range (N + smoothing_window + 1)).filter
          (fun i => decide (smoothing_window ≤ i)
            && decide (i < N + smoothing_window - 1)) := by
    refine List.filter_congr ?_
    intro i _
    exact iter_saved_iff N hN i
  rw [hcongr, filter_range_between smoothing_window (N + smoothing_window + 1)
        (N + smoothing_window - 1) (by omega) (by simp [smoothing_window]; omega)]
  have : N + smoothing_window - 1 - smoothing_window = N - 1 := by omega
  rw [this]

/-- For inputs longer than the smoothing window, `stabilize_video` saves
one frame per source frame except the last: `N - 1` frames in total. -/
theorem saved_frame_count_eq (N : Nat) (hN : smoothing_window < N) :
    saved_frame_count N = N - 1 := by
  simp [saved_frame_count, saved_iters_eq N hN]

/-- The `j`-th saved frame is the stabilized version of source frame
`j`: the saved sequence covers source frames `0 .. N - 2` in order. -/
theorem saved_sources_eq (N : Nat) (hN : smoothing_window < N) :
    saved_sources N = List.range (N - 1) := by
  unfold saved_sources
  rw [saved_iters_eq N hN, List.range'_eq_map_range, List.map_map]
  have : ((fun i => i - smoothing_window) ∘ (fun x => smoothing_window + x))
      = fun x : Nat => x := by
    funext x
    simp
  rw [this]
  exact List.map_id' _

/-! ### Part B: commands, filesystem effects and the pipeline traces

The ffmpeg invocations are embedded as the exact argument lists the
source builds; the effects of the pipeline on disk are embedded as a
trace of operations over an association-list filesystem.  Paths that the
source builds from fresh UUID names are represented by fixed strings
(the claims do not depend on the generated names).
-/

/-- A decimal digit as a character. -/
def digitChar (d : Nat) : Char := Char.ofNat (48 + d % 10)

/-- Zero-padded six-digit rendering of a frame number, as produced by
the `%06d`-style format `f"frame_{saved_frame_count:06d}"` of the
source (exact for numbers below 1000000). -/
def pad6 (n : Nat) : String :=
  String.mk ([5, 4, 3, 2, 1, 0].map (fun k => digitChar (n / 10 ^ k)))

/-- The recursion behind `pyReplace`, on character lists, with fuel. -/
def pyReplaceAux (old new : List Char) : Nat → List Char → List Char
  | 0, s => s
  | _ + 1, [] => []
  | fuel + 1, c :: rest =>
    if old.isPrefixOf (c :: rest) then
      new ++ pyReplaceAux old new fuel (List.drop old.length (c :: rest))
    else
      c :: pyReplaceAux old new fuel rest

/-- Python `str.replace`: replace every non-overlapping occurrence of
`old` in `s` by `new`, scanning left to right. -/
def pyReplace (s old new : String) : String :=
  String.mk (pyReplaceAux old.data new.data (s.data.length + 1) s.data)

/-- Python `str.endswith`. -/
def pyEndsWith (s suffix : String) : Bool := suffix.data.isSuffixOf s.data

/-- Python `str.startswith`; also used to express that one path lies
inside a directory. -/
def pyStartsWith (s prefixStr : String) : Bool := prefixStr.data.isPrefixOf s.data

/-- The frame directory of `stabilize_video` (video_helpers.py
line 153). -/
def temp_frames_dir : String := "tmp/frames"

/-- The mask directory of `stabilize_video` (video_helpers.py
line 154). -/
def temp_mask_dir : String := "tmp/mask"

/-- The file written for the `j`-th saved stabilized frame
(video_helpers.py line 234). -/
def frame_path (j : Nat) : String :=
  temp_frames_dir ++ "/frame_" ++ pad6 j ++ ".png"

/-- The file written for the `j`-th transformed mask (video_helpers.py
line 225). -/
def transformed_mask_path (j : Nat) : String :=
  temp_mask_dir ++ "/transformed_mask_" ++ pad6 j ++ ".png"

/-- The file written for the `j`-th inpainting mask (video_helpers.py
line 226). -/
def inpaint_mask_path (j : Nat) : String :=
  temp_mask_dir ++ "/inpaint_mask_" ++ pad6 j ++ ".png"

/-- The ffmpeg invocation of `extract_video_clip` (video_helpers.py
lines 66-70). -/
def extract_video_clip_cmd (input start stop output : String) : List String :=
  ["ffmpeg", "-i", input, "-ss", start, "-to", stop, "-c:v", "libx264",
   "-preset", "medium", "-crf", "23", "-c:a", "aac", "-y", output]

/-- The ffmpeg invocation of `convert_to_mov` (video_helpers.py
lines 109-112). -/
def convert_to_mov_cmd (input output : String) : List String :=
  ["ffmpeg", "-i", input, "-c:v", "libx264", "-c:a", "aac",
   "-movflags", "+faststart", "-y", output]

/-- The ffmpeg invocation that encodes the saved frames into a video in
`stabilize_video` (video_helpers.py lines 255-259). -/
def stab_frames_cmd (fps tempOut : String) : List String :=
  ["ffmpeg", "-framerate", fps, "-i", temp_frames_dir ++ "/frame_%06d.png",
   "-c:v", "libx264", "-preset", "medium", "-crf", "23",
   "-pix_fmt", "yuv420p", "-y", tempOut]

/-- The ffmpeg invocation that converts the intermediate AVI to MOV in
`stabilize_video` (video_helpers.py lines 280-283). -/
def stab_mov_cmd (tempOut outputPath : String) : List String :=
  ["ffmpeg", "-i", tempOut, "-c:v", "libx264", "-preset", "medium",
   "-crf", "23", "-c:a", "aac", "-y", outputPath]

/-- The frame-extraction invocation of `extract_frames_and_audio`
(video_api.py lines 68-71). -/
def extract_frames_cmd (videoPath framesDir : String) : List String :=
  ["ffmpeg", "-i", videoPath, "-vf", "fps=30",
   framesDir ++ "/frame_%06d.png", "-y"]

/-- The audio-extraction invocation of `extract_frames_and_audio`
(video_api.py lines 87-89). -/
def extract_audio_cmd (videoPath audioPath : String) : List String :=
  ["ffmpeg", "-i", videoPath, "-vn", "-acodec", "aac", audioPath, "-y"]

/-- The silent-audio synthesis invocation of `extract_frames_and_audio`
(video_api.py lines 108-111): silence of exactly the probed container
duration. -/
def silent_audio_cmd (durationStr audioPath : String) : List String :=
  ["ffmpeg", "-f", "lavfi", "-i",
   "anullsrc=channel_layout=stereo:sample_rate=48000",
   "-t", durationStr, "-c:a", "aac", audioPath, "-y"]

/-- The remux invocation of `combine_frames_to_video_with_audio`
(video_api.py lines 170-173): frames plus audio, with `-shortest`. -/
def combine_frames_to_video_with_audio_cmd
    (framesDir audioPath outputPath framerate : String) : List String :=
  ["ffmpeg", "-framerate", framerate, "-i", framesDir ++ "/frame_%06d.png",
   "-i", audioPath, "-c:v", "libx264", "-pix_fmt", "yuv420p",
   "-shortest", outputPath, "-y"]

/-- The command lists run by `extract_frames_and_audio` (video_api.py
lines 64-124) when every subprocess succeeds: frames are always
extracted; the audio track is extracted when the probe reports an audio
stream and synthesized as silence of the probed duration otherwise. -/
def extract_frames_and_audio_cmds (hasAudio : Bool)
    (durationStr videoPath framesDir audioPath : String) : List (List String) :=
  if hasAudio then
    [extract_frames_cmd videoPath framesDir,
     extract_audio_cmd videoPath audioPath]
  else
    [extract_frames_cmd videoPath framesDir,
     silent_audio_cmd durationStr audioPath]

/-- Modelled from the ffmpeg documentation of `-shortest` (used at
video_api.py line 172): encoding stops when the shortest input stream
ends, so both output streams are trimmed to the shorter duration. -/
def mux_shortest_durations (videoDur audioDur : ℚ) : ℚ × ℚ :=
  (min videoDur audioDur, min videoDur audioDur)

/-- The number of times a given argument occurs in a command line. -/
def argCount (cmd : List String) (arg : String) : Nat :=
  (cmd.filter (fun a => a == arg)).length

/-- A filesystem entry: a regular file or a directory. -/
inductive FSEntry where
  | file : FSEntry
  | dir : FSEntry
deriving DecidableEq, Repr

/-- A filesystem as an association list from paths to entries. -/
abbrev FS := List (String × FSEntry)

/-- Look a path up in the filesystem. -/
def FS.look : FS → String → Option FSEntry
  | [], _ => none
  | (q, e) :: rest, p => if q = p then some e else FS.look rest p

/-- `os.path.exists`. -/
def FS.pathExists (fs : FS) (p : String) : Bool := (FS.look fs p).isSome

/-- `os.path.isfile`. -/
def FS.isFile (fs : FS) (p : String) : Bool := FS.look fs p == some .file

/-- Add an entry for a path unless the path already exists (the effect
of `os.makedirs(..., exist_ok=True)` and of creating a file). -/
def FS.addIfAbsent (fs : FS) (p : String) (e : FSEntry) : FS :=
  if FS.pathExists fs p then fs else fs ++ [(p, e)]

/-- Drop the entry of a path. -/
def FS.removeKey (fs : FS) (p : String) : FS :=
  fs.filter (fun x => !(x.1 == p))

/-- Whether some entry lies strictly inside the directory `d` (its path
extends `d ++ "/"`). -/
def FS.hasChildOf (fs : FS) (d : String) : Bool :=
  fs.any (fun x => (d ++ "/").data.isPrefixOf x.1.data)

/-- The Python exceptions the embedded code can raise. -/
inductive PyExc where
  | attributeError (name : String)
  | isADirectoryError (path : String)
  | fileNotFoundError (path : String)
deriving DecidableEq, Repr

/-- `os.remove`: deletes a regular file; raises on a directory or a
missing path. -/
def os_remove (fs : FS) (p : String) : Except PyExc FS :=
  match FS.look fs p with
  | some .file => .ok (FS.removeKey fs p)
  | some .dir => .error (.isADirectoryError p)
  | none => .error (.fileNotFoundError p)

/-- One iteration of the loop of `cleanup_temp_files` (video_helpers.py
lines 386-394): if the path exists, try `os.remove` and swallow any
exception into a warning; otherwise do nothing. -/
def cleanup_step (fs : FS) (p : String) : FS :=
  if FS.pathExists fs p then
    match os_remove fs p with
    | .ok fs2 => fs2
    | .error _ => fs
  else fs

/-- `cleanup_temp_files` (video_helpers.py lines 377-396): iterate
`cleanup_step` over the arguments.  The only operation that can raise,
`os.remove`, sits inside a `try`/`except Exception` block, so the
function itself always returns normally. -/
def cleanup_temp_files (fs : FS) (paths : List String) : Except PyExc FS :=
  .ok (paths.foldl cleanup_step fs)

/-- One filesystem-affecting step of the pipeline. -/
inductive FSOp where
  | makedirs (d : String)
  | imwrite (p : String)
  | ffmpegRun (cmd : List String) (out : String) (ok : Bool)
  | osRemoveOp (p : String)
  | rmdirIfEmpty (d : String)
  | renameOp (src dst : String)
  | cleanupOp (p : String)
deriving DecidableEq, Repr

/-- The effect of one step on the filesystem.  An `ffmpegRun` creates
its output file exactly when the invocation succeeds; `rmdirIfEmpty`
models `os.rmdir` wrapped in `try`/`except OSError` (video_helpers.py
lines 324-328); `cleanupOp` is one argument of `cleanup_temp_files`. -/
def applyOp (fs : FS) : FSOp → FS
  | .makedirs d => FS.addIfAbsent fs d .dir
  | .imwrite p => FS.addIfAbsent fs p .file
  | .ffmpegRun _ out ok => if ok then FS.addIfAbsent fs out .file else fs
  | .osRemoveOp p => FS.removeKey fs p
  | .rmdirIfEmpty d => if FS.hasChildOf fs d then fs else FS.removeKey fs d
  | .renameOp src dst => FS.addIfAbsent (FS.removeKey fs src) dst .file
  | .cleanupOp p => cleanup_step fs p

/-- Run a trace of steps in order. -/
def runOps (fs : FS) (ops : List FSOp) : FS := ops.foldl applyOp fs

/-- Whether a step can introduce an entry for the given path. -/
def FSOp.createsKey (op : FSOp) (p : String) : Bool :=
  match op with
  | .makedirs d => d == p
  | .imwrite q => q == p
  | .ffmpegRun _ out ok => ok && out == p
  | .renameOp _ dst => dst == p
  | _ => false

/-- Whether a step can drop the entry of the given path. -/
def FSOp.deletesKey (op : FSOp) (p : String) : Bool :=
  match op with
  | .osRemoveOp q => q == p
  | .rmdirIfEmpty d => d == p
  | .renameOp src _ => src == p
  | .cleanupOp q => q == p
  | _ => false

/-- Whether a step can change the entry of the given path. -/
def FSOp.touchesKey (op : FSOp) (p : String) : Bool :=
  op.createsKey p || op.deletesKey p

theorem FS.look_append (fs gs : FS) (p : String) :
    FS.look (fs ++ gs) p
      = if (FS.look fs p).isSome then FS.look fs p else FS.look gs p := by
  induction fs with
  | nil => simp [FS.look]
  | cons x rest ih =>
    obtain ⟨q, e⟩ := x
    by_cases h : q = p
    · simp [FS.look, h]
    · simp only [List.cons_append, FS.look, if_neg h]
      exact ih

theorem FS.look_removeKey (fs : FS) (q p : String) :
    FS.look (FS.removeKey fs q) p = if q = p then none else FS.look fs p := by
  induction fs with
  | nil => simp [FS.removeKey, FS.look]
  | cons x rest ih =>
    obtain ⟨r, e⟩ := x
    unfold FS.removeKey at ih ⊢
    rw [List.filter_cons]
    by_cases hr : r = q
    · have hb : (!(r == q)) = false := by simp [hr]
      rw [hb]
      simp only [Bool.false_eq_true, if_false]
      rw [ih]
      by_cases hqp : q = p
      · simp [hqp]
      · have hrp : ¬ (r = p) := by rw [hr]; exact hqp
        simp [hqp, FS.look, hrp]
    · have hb : (!(r == q)) = true := by simp [hr]
      rw [hb]
      simp only [if_true]
      by_cases hrp : r = p
      · have hqp : ¬ (q = p) := by rw [← hrp]; intro hc; exact hr hc.symm
        simp [FS.look, hrp, hqp]
      · simp only [FS.look, if_neg hrp]
        rw [ih]

theorem FS.look_addIfAbsent_other (fs : FS) (q p : String) (e : FSEntry)
    (h : ¬ (q = p)) :
    FS.look (FS.addIfAbsent fs q e) p = FS.look fs p := by
  unfold FS.addIfAbsent
  by_cases hex : FS.pathExists fs q
  · simp [hex]
  · simp only [hex, if_neg, Bool.false_eq_true, if_false]
    rw [FS.look_append]
    by_cases hs : (FS.look fs p).isSome
    · simp [hs]
    · have hn : FS.look fs p = none := Option.not_isSome_iff_eq_none.mp hs
      simp [hs, hn, FS.look, h]

theorem FS.look_addIfAbsent_self_of_none (fs : FS) (p : String) (e : FSEntry)
    (h : FS.look fs p = none) :
    FS.look (FS.addIfAbsent fs p e) p = some e := by
  unfold FS.addIfAbsent
  have hex : FS.pathExists fs p = false := by simp [FS.pathExists, h]
  simp only [hex, Bool.false_eq_true, if_false]
  rw [FS.look_append, h]
  simp [FS.look]

theorem look_applyOp_untouched (fs : FS) (op : FSOp) (p : String)
    (h : op.touchesKey p = false) :
    FS.look (applyOp fs op) p = FS.look fs p := by
  cases op with
  | makedirs d =>
    simp only [FSOp.touchesKey, FSOp.createsKey, FSOp.deletesKey, Bool.or_eq_false_iff] at h
    have : ¬ (d = p) := by simpa using h.1
    simp [applyOp, FS.look_addIfAbsent_other fs d p _ this]
  | imwrite q =>
    simp only [FSOp.touchesKey, FSOp.createsKey, FSOp.deletesKey, Bool.or_eq_false_iff] at h
    have : ¬ (q = p) := by simpa using h.1
    simp [applyOp, FS.look_addIfAbsent_other fs q p _ this]
  | ffmpegRun cmd out ok =>
    simp only [FSOp.touchesKey, FSOp.createsKey, FSOp.deletesKey, Bool.or_eq_false_iff] at h
    cases ok with
    | false => simp [applyOp]
    | true =>
      have : ¬ (out = p) := by simpa using h.1
      simp [applyOp, FS.look_addIfAbsent_other fs out p _ this]
  | osRemoveOp q =>
    simp only [FSOp.touchesKey, FSOp.createsKey, FSOp.deletesKey, Bool.or_eq_false_iff] at h
    have : ¬ (q = p) := by simpa using h.2
    simp [applyOp, FS.look_removeKey, this]
  | rmdirIfEmpty d =>
    simp only [FSOp.touchesKey, FSOp.createsKey, FSOp.deletesKey, Bool.or_eq_false_iff] at h
    have : ¬ (d = p) := by simpa using h.2
    by_cases hc : FS.hasChildOf fs d
    · simp [applyOp, hc]
    · simp [applyOp, hc, FS.look_removeKey, this]
  | renameOp src dst =>
    simp only [FSOp.touchesKey, FSOp.createsKey, FSOp.deletesKey, Bool.or_eq_false_iff] at h
    have hdst : ¬ (dst = p) := by simpa using h.1
    have hsrc : ¬ (src = p) := by simpa using h.2
    simp [applyOp, FS.look_addIfAbsent_other _ dst p _ hdst, FS.look_removeKey, hsrc]
  | cleanupOp q =>
    simp only [FSOp.touchesKey, FSOp.createsKey, FSOp.deletesKey, Bool.or_eq_false_iff] at h
    have hq : ¬ (q = p) := by simpa using h.2
    simp only [applyOp, cleanup_step]
    by_cases hex : FS.pathExists fs q
    · simp only [hex, if_true]
      unfold os_remove
      cases hl : FS.look fs q with
      | none => simp
      | some e =>
        cases e with
        | file => simp [FS.look_removeKey, hq]
        | dir => simp
    · simp [hex]

theorem look_runOps_untouched (ops : List FSOp) (fs : FS) (p : String)
    (h : ∀ op ∈ ops, op.touchesKey p = false) :
    FS.look (runOps fs ops) p = FS.look fs p := by
  induction ops generalizing fs with
  | nil => rfl
  | cons op rest ih =>
    have hstep : runOps fs (op :: rest) = runOps (applyOp fs op) rest := rfl
    rw [hstep, ih (applyOp fs op) (fun o ho => h o (List.mem_cons_of_mem op ho))]
    exact look_applyOp_untouched fs op p (h op (List.mem_cons_self op rest))

theorem look_applyOp_none (fs : FS) (op : FSOp) (p : String)
    (h0 : FS.look fs p = none) (h : op.createsKey p = false) :
    FS.look (applyOp fs op) p = none := by
  cases op with
  | makedirs d =>
    have : ¬ (d = p) := by simpa [FSOp.createsKey] using h
    rw [applyOp, FS.look_addIfAbsent_other fs d p _ this]
    exact h0
  | imwrite q =>
    have : ¬ (q = p) := by simpa [FSOp.createsKey] using h
    rw [applyOp, FS.look_addIfAbsent_other fs q p _ this]
    exact h0
  | ffmpegRun cmd out ok =>
    cases ok with
    | false => simpa [applyOp] using h0
    | true =>
      have : ¬ (out = p) := by simpa [FSOp.createsKey] using h
      simp only [applyOp, if_true]
      rw [FS.look_addIfAbsent_other fs out p _ this]
      exact h0
  | osRemoveOp q =>
    rw [applyOp, FS.look_removeKey]
    by_cases hq : q = p
    · simp [hq]
    · simp [hq, h0]
  | rmdirIfEmpty d =>
    by_cases hc : FS.hasChildOf fs d
    · simpa [applyOp, hc] using h0
    · simp only [applyOp, hc, Bool.false_eq_true, if_false]
      rw [FS.look_removeKey]
      by_cases hd : d = p
      · simp [hd]
      · simp [hd, h0]
  | renameOp src dst =>
    have hdst : ¬ (dst = p) := by simpa [FSOp.createsKey] using h
    rw [applyOp, FS.look_addIfAbsent_other _ dst p _ hdst, FS.look_removeKey]
    by_cases hs : src = p
    · simp [hs]
    · simp [hs, h0]
  | cleanupOp q =>
    simp only [applyOp, cleanup_step]
    by_cases hex : FS.pathExists fs q
    · simp only [hex, if_true]
      unfold os_remove
      cases hl : FS.look fs q with
      | none => simpa using h0
      | some e =>
        cases e with
        | file =>
          rw [FS.look_removeKey]
          by_cases hq : q = p
          · simp [hq]
          · simp [hq, h0]
        | dir => simpa using h0
    · simpa [hex] using h0

theorem look_runOps_none (ops : List FSOp) (fs : FS) (p : String)
    (h0 : FS.look fs p = none) (h : ∀ op ∈ ops, op.createsKey p = false) :
    FS.look (runOps fs ops) p = none := by
  induction ops generalizing fs with
  | nil => exact h0
  | cons op rest ih =>
    have hstep : runOps fs (op :: rest) = runOps (applyOp fs op) rest := rfl
    rw [hstep]
    exact ih (applyOp fs op)
      (look_applyOp_none fs op p h0 (h op (List.mem_cons_self op rest)))
      (fun o ho => h o (List.mem_cons_of_mem op ho))

/-- The outcome of an API handler: a success body, an `HTTPException`
mapped to its status and detail (video_api.py raises these with status
400 or 500), or an exception that escapes the handler and is turned into
an internal server error response by the framework. -/
inductive ApiResult where
  | ok (link absolute_path : String)
  | httpError (status : Nat) (detail : String)
  | serverError (exc : PyExc)
deriving DecidableEq, Repr

/-- The request model of the stabilization endpoint
(data_models.py lines 5-13): its only declared field is `video_path`;
the docstring mentions `time_stamp` but no such field exists. -/
structure VideoStabilizationRequest where
  video_path : String
deriving DecidableEq, Repr

/-- The declared field names of `VideoStabilizationRequest`
(data_models.py line 13). -/
def videoStabilizationRequestFields : List String := ["video_path"]

/-- Attribute access on a pydantic model instance: defined fields
resolve, any other name raises `AttributeError`. -/
def pydantic_getattr (fields : List String) (attr : String) : Except PyExc Unit :=
  if attr ∈ fields then .ok () else .error (.attributeError attr)

/-- The per-job environment of one stabilization request: the outcomes
of the subprocess invocations and probed input properties. -/
structure StabEnv where
  extractOk : Bool
  convertOk : Bool
  frameCount : Nat
  fps : String
  framesOk : Bool
  movOk : Bool
deriving DecidableEq, Repr

/-- Representative of the UUID-named temp clip path
`f"tmp/{temp_clip_name}"` (video_api.py line 210). -/
def temp_clip_path : String := "tmp/clip.mp4"

/-- Representative of the UUID-named temp MOV path
`f"tmp/{temp_mov_name}"` (video_api.py line 211). -/
def temp_mov_path : String := "tmp/conv.mov"

/-- Representative of the UUID-named final output file name
(video_api.py line 207); the generated name is a hex UUID followed by
`".mov"`. -/
def final_output_name : String := "out.mov"

/-- The public output path `f"assets/public/{final_output_name}"`
(video_api.py line 212). -/
def final_output_path : String := "assets/public/" ++ final_output_name

/-- The directory creations of `ensure_directories_exist`
(video_helpers.py lines 345-360). -/
def ensure_directories_ops : List FSOp :=
  [.makedirs "tmp", .makedirs "assets/public"]

/-- The mask and frame files written for one saved frame, in source
order (video_helpers.py lines 225-235). -/
def frame_write_ops (j : Nat) : List FSOp :=
  [.imwrite (transformed_mask_path j), .imwrite (inpaint_mask_path j),
   .imwrite (frame_path j)]

/-- All mask and frame writes of the loop. -/
def frames_write_ops (count : Nat) : List FSOp :=
  (List.range count).flatMap frame_write_ops

/-- The frame-file cleanup loop of the success branch (video_helpers.py
lines 308-311). -/
def frame_cleanup_ops (count : Nat) : List FSOp :=
  (List.range count).map (fun j => .osRemoveOp (frame_path j))

/-- The mask-file cleanup loop of the success branch (video_helpers.py
lines 315-321). -/
def mask_cleanup_ops (count : Nat) : List FSOp :=
  (List.range count).flatMap (fun j =>
    [FSOp.osRemoveOp (transformed_mask_path j),
     FSOp.osRemoveOp (inpaint_mask_path j)])

/-- The filesystem trace and return value of `stabilize_video`
(video_helpers.py lines 138-342) for an input of `N` readable frames,
given the outcomes of the two ffmpeg invocations.  The temp output name
is `output_path.replace(".mov", "_temp.avi")` (line 253); on a failed
MOV conversion the AVI is renamed to `output_path.replace(".mov",
".avi")` and the function still reports success (lines 302-304, 331). -/
def stabilize_video_ops (N : Nat) (fps : String) (framesOk movOk : Bool)
    (outputPath : String) : List FSOp × Bool :=
  let count := saved_frame_count N
  let pre := [FSOp.makedirs temp_frames_dir, FSOp.makedirs temp_mask_dir]
      ++ frames_write_ops count
  if count = 0 then (pre, false)
  else
    let tempOut := pyReplace outputPath ".mov" "_temp.avi"
    if framesOk then
      let movOps :=
        if pyEndsWith outputPath ".mov" && (tempOut != outputPath) then
          if movOk then
            [FSOp.ffmpegRun (stab_mov_cmd tempOut outputPath) outputPath true,
             FSOp.osRemoveOp tempOut]
          else
            [FSOp.ffmpegRun (stab_mov_cmd tempOut outputPath) outputPath false,
             FSOp.renameOp tempOut (pyReplace outputPath ".mov" ".avi")]
        else []
      (pre ++ [FSOp.ffmpegRun (stab_frames_cmd fps tempOut) tempOut true]
        ++ movOps ++ frame_cleanup_ops count ++ mask_cleanup_ops count
        ++ [FSOp.rmdirIfEmpty temp_frames_dir, FSOp.rmdirIfEmpty temp_mask_dir],
       true)
    else
      (pre ++ [FSOp.ffmpegRun (stab_frames_cmd fps tempOut) tempOut false],
       false)

/-- The body of `api_video_stabilization` from line 201 on
(video_api.py lines 201-271): directory setup, clip extraction, MOV
conversion, stabilization, cleanup of the temp clip and MOV, and the
response.  The time-range arguments of the clip extraction come from
the dead `request.time_stamp` read and are represented by fixed
strings. -/
def api_video_stabilization_body (env : StabEnv) (videoPath : String)
    (fs0 : FS) : ApiResult × FS :=
  let fs1 := runOps fs0 ensure_directories_ops
  let fs2 := applyOp fs1
    (.ffmpegRun (extract_video_clip_cmd videoPath "ts0" "ts1" temp_clip_path)
      temp_clip_path env.extractOk)
  if env.extractOk = false then
    (.httpError 400 "Failed to extract video clip", fs2)
  else
    let fs3 := applyOp fs2
      (.ffmpegRun (convert_to_mov_cmd temp_clip_path temp_mov_path)
        temp_mov_path env.convertOk)
    if env.convertOk = false then
      (.httpError 400 "Failed to convert video format",
       applyOp fs3 (.cleanupOp temp_clip_path))
    else
      let so := stabilize_video_ops env.frameCount env.fps env.framesOk
        env.movOk final_output_path
      let fs4 := runOps fs3 so.1
      if so.2 = false then
        (.httpError 400 "Failed to stabilize video",
         runOps fs4 [.cleanupOp temp_clip_path, .cleanupOp temp_mov_path])
      else
        (.ok ("/api/assets/public/" ++ final_output_name) final_output_path,
         runOps fs4 [.cleanupOp temp_clip_path, .cleanupOp temp_mov_path])

/-- The full handler `api_video_stabilization` (video_api.py lines
185-271).  Before any directory setup or subprocess work, line 199
reads `request.time_stamp[0]` inside a log call; the read happens
outside the `try` block, so the resulting `AttributeError` escapes the
handler unhandled. -/
def api_video_stabilization (req : VideoStabilizationRequest)
    (env : StabEnv) (fs : FS) : ApiResult × FS :=
  match pydantic_getattr videoStabilizationRequestFields "time_stamp" with
  | .error e => (.serverError e, fs)
  | .ok _ => api_video_stabilization_body env req.video_path fs

/-- `validate_video_path` (video_api.py lines 25-30): `some` of the
HTTP 400 result it raises, or `none` when the path is an existing
regular file. -/
def validate_video_path (fs : FS) (p : String) : Option ApiResult :=
  if FS.pathExists fs p = false then
    some (.httpError 400 ("Video file not found: " ++ p))
  else if FS.isFile fs p = false then
    some (.httpError 400 ("Path is not a file: " ++ p))
  else none

/-- The shared temp directory of the remove-bg, color-grading and
portrait-effect handlers (`temp_dir = "./tmp"`, video_api.py lines 300,
391, 475). -/
def temp_dir_effects : String := "./tmp"

/-- The per-job environment of one frame-effect request. -/
structure EffectEnv where
  extractOk : Bool
  hasAudioStream : Bool
  durationStr : String
  combineOk : Bool
  framerate : String
deriving DecidableEq, Repr

/-- The common body of the remove-bg, color-grading and portrait-effect
handlers after validation (video_api.py lines 296-350, 383-438,
469-522): temp directories, frame/audio extraction, per-frame
processing (which only writes inside `./tmp/processed` and is not
tracked key by key), the audio remux into `assets/public`, and
`cleanup_temp_files(temp_dir)`.  `outName` stands for the generated
output file name. -/
def api_effect_body (env : EffectEnv) (videoPath outName : String)
    (fs1 : FS) : ApiResult × FS :=
  let audioPath := temp_dir_effects ++ "/audio.aac"
  let framesDir := temp_dir_effects ++ "/frames"
  let fs2 := runOps fs1
    [.makedirs temp_dir_effects, .makedirs framesDir,
     .makedirs (temp_dir_effects ++ "/processed")]
  if env.extractOk = false then
    (.httpError 400 "Failed to extract video frames",
     applyOp fs2 (.cleanupOp temp_dir_effects))
  else
    let fs3 := runOps fs2
      ((extract_frames_and_audio_cmds env.hasAudioStream env.durationStr
          videoPath framesDir audioPath).map
        (fun cmd => FSOp.ffmpegRun cmd audioPath true))
    let outPath := "assets/public/" ++ outName
    let fs4 := runOps fs3
      [.makedirs "tmp", .makedirs "assets/public",
       .ffmpegRun (combine_frames_to_video_with_audio_cmd
          (temp_dir_effects ++ "/processed") audioPath outPath env.framerate)
        outPath env.combineOk]
    if env.combineOk = false then
      (.httpError 400 "Failed to combine frames with audio",
       applyOp fs4 (.cleanupOp temp_dir_effects))
    else
      (.ok ("/api/assets/public/" ++ outName) outPath,
       applyOp fs4 (.cleanupOp temp_dir_effects))

/-- `api_video_background_removal` (video_api.py lines 274-358):
validation happens first; `validate_video_path` raises before any
directory or frame work. -/
def api_video_background_removal (videoPath : String) (env : EffectEnv)
    (fs : FS) : ApiResult × FS :=
  match validate_video_path fs videoPath with
  | some r => (r, fs)
  | none => api_effect_body env videoPath "bg_removed.mov" fs

/-- `api_video_color_grading` (video_api.py lines 361-446): validation
happens first (the reference image validation is not tracked). -/
def api_video_color_grading (videoPath : String) (env : EffectEnv)
    (fs : FS) : ApiResult × FS :=
  match validate_video_path fs videoPath with
  | some r => (r, fs)
  | none => api_effect_body env videoPath "color_graded.mov" fs

/-- `api_video_portrait_effect` (video_api.py lines 449-530):
validation happens first. -/
def api_video_portrait_effect (videoPath : String) (env : EffectEnv)
    (fs : FS) : ApiResult × FS :=
  match validate_video_path fs videoPath with
  | some r => (r, fs)
  | none => api_effect_body env videoPath "portrait_effect.mov" fs

theorem runOps_append (fs : FS) (a b : List FSOp) :
    runOps fs (a ++ b) = runOps (runOps fs a) b := by
  unfold runOps
  exact List.foldl_append applyOp fs a b

theorem look_applyOp_some_stable (fs : FS) (op : FSOp) (p : String)
    (e : FSEntry) (h : FS.look fs p = some e) (hnd : op.deletesKey p = false) :
    FS.look (applyOp fs op) p = some e := by
  have hex : ∀ q e2, FS.look (FS.addIfAbsent fs q e2) p = some e := by
    intro q e2
    by_cases hq : q = p
    · subst hq
      unfold FS.addIfAbsent
      have : FS.pathExists fs q = true := by simp [FS.pathExists, h]
      simp [this, h]
    · rw [FS.look_addIfAbsent_other fs q p _ hq]
      exact h
  cases op with
  | makedirs d => exact hex d _
  | imwrite q => exact hex q _
  | ffmpegRun cmd out ok =>
    cases ok with
    | false => simpa [applyOp] using h
    | true => simpa [applyOp] using hex out .file
  | osRemoveOp q =>
    have hq : ¬ (q = p) := by simpa [FSOp.deletesKey] using hnd
    simp [applyOp, FS.look_removeKey, hq, h]
  | rmdirIfEmpty d =>
    have hd : ¬ (d = p) := by simpa [FSOp.deletesKey] using hnd
    by_cases hc : FS.hasChildOf fs d
    · simpa [applyOp, hc] using h
    · simp [applyOp, hc, FS.look_removeKey, hd, h]
  | renameOp src dst =>
    have hs : ¬ (src = p) := by simpa [FSOp.deletesKey] using hnd
    by_cases hq : dst = p
    · subst hq
      show FS.look (FS.addIfAbsent (FS.removeKey fs src) dst .file) dst = some e
      have : FS.look (FS.removeKey fs src) dst = some e := by
        rw [FS.look_removeKey]
        simp [hs, h]
      unfold FS.addIfAbsent
      have hx : FS.pathExists (FS.removeKey fs src) dst = true := by
        simp [FS.pathExists, this]
      simp [hx, this]
    · show FS.look (FS.addIfAbsent (FS.removeKey fs src) dst .file) p = some e
      rw [FS.look_addIfAbsent_other _ dst p _ hq, FS.look_removeKey]
      simp [hs, h]
  | cleanupOp q =>
    have hq : ¬ (q = p) := by simpa [FSOp.deletesKey] using hnd
    simp only [applyOp, cleanup_step]
    by_cases hexq : FS.pathExists fs q
    · simp only [hexq, if_true]
      unfold os_remove
      cases hl : FS.look fs q with
      | none => simpa using h
      | some e2 =>
        cases e2 with
        | file =>
          rw [FS.look_removeKey]
          simp [hq, h]
        | dir => simpa using h
    · simpa [hexq] using h

theorem look_runOps_some_stable (ops : List FSOp) (fs : FS) (p : String)
    (e : FSEntry) (h : FS.look fs p = some e)
    (hnd : ∀ op ∈ ops, op.deletesKey p = false) :
    FS.look (runOps fs ops) p = some e := by
  induction ops generalizing fs with
  | nil => exact h
  | cons op rest ih =>
    have hstep : runOps fs (op :: rest) = runOps (applyOp fs op) rest := rfl
    rw [hstep]
    exact ih (applyOp fs op)
      (look_applyOp_some_stable fs op p e h (hnd op (List.mem_cons_self op rest)))
      (fun o ho => hnd o (List.mem_cons_of_mem op ho))

theorem look_runOps_none_of_remove_mem (ops : List FSOp) (fs : FS)
    (p : String) (hmem : FSOp.osRemoveOp p ∈ ops)
    (hnc : ∀ op ∈ ops, op.createsKey p = false) :
    FS.look (runOps fs ops) p = none := by
  induction ops generalizing fs with
  | nil => cases hmem
  | cons op rest ih =>
    have hstep : runOps fs (op :: rest) = runOps (applyOp fs op) rest := rfl
    rw [hstep]
    by_cases hop : op = FSOp.osRemoveOp p
    · subst hop
      have h0 : FS.look (applyOp fs (FSOp.osRemoveOp p)) p = none := by
        simp [applyOp, FS.look_removeKey]
      exact look_runOps_none rest _ p h0
        (fun o ho => hnc o (List.mem_cons_of_mem _ ho))
    · have hrest : FSOp.osRemoveOp p ∈ rest := by
        cases List.mem_cons.mp hmem with
        | inl h => exact absurd h.symm hop
        | inr h => exact h
      exact ih (applyOp fs op) hrest (fun o ho => hnc o (List.mem_cons_of_mem _ ho))

theorem ne_of_pyStartsWith {pre s t : String}
    (hs : pyStartsWith s pre = true) (ht : pyStartsWith t pre = false) :
    s ≠ t := by
  intro h
  rw [h, ht] at hs
  cases hs

theorem beq_false_of_startsWith {pre s t : String}
    (hs : pyStartsWith s pre = true) (ht : pyStartsWith t pre = false) :
    (s == t) = false ∧ (t == s) = false := by
  have h1 : s ≠ t := ne_of_pyStartsWith hs ht
  constructor
  · exact beq_eq_false_iff_ne.mpr h1
  · exact beq_eq_false_iff_ne.mpr (fun h => h1 h.symm)

/-- The temp output `output_path.replace(".mov", "_temp.avi")` of
`stabilize_video` (video_helpers.py line 253), for the handler's public
output path: it lies in the public directory, not in `tmp`. -/
def stab_temp_output : String := pyReplace final_output_path ".mov" "_temp.avi"

theorem frame_path_startsWith (j : Nat) :
    pyStartsWith (frame_path j) "tmp/frames/" = true := rfl

theorem tmask_path_startsWith (j : Nat) :
    pyStartsWith (transformed_mask_path j) "tmp/mask/" = true := rfl

theorem imask_path_startsWith (j : Nat) :
    pyStartsWith (inpaint_mask_path j) "tmp/mask/" = true := rfl

theorem frame_path_ne (p : String)
    (hp : pyStartsWith p "tmp/frames/" = false) (j : Nat) :
    frame_path j ≠ p :=
  ne_of_pyStartsWith (frame_path_startsWith j) hp

theorem tmask_path_ne (p : String)
    (hp : pyStartsWith p "tmp/mask/" = false) (j : Nat) :
    transformed_mask_path j ≠ p :=
  ne_of_pyStartsWith (tmask_path_startsWith j) hp

theorem imask_path_ne (p : String)
    (hp : pyStartsWith p "tmp/mask/" = false) (j : Nat) :
    inpaint_mask_path j ≠ p :=
  ne_of_pyStartsWith (imask_path_startsWith j) hp

theorem mem_frames_write_ops {count : Nat} {op : FSOp}
    (h : op ∈ frames_write_ops count) :
    ∃ j, j < count ∧ (op = .imwrite (transformed_mask_path j)
      ∨ op = .imwrite (inpaint_mask_path j)
      ∨ op = .imwrite (frame_path j)) := by
  simp only [frames_write_ops, List.mem_flatMap, List.mem_range] at h
  obtain ⟨j, hj, hop⟩ := h
  refine ⟨j, hj, ?_⟩
  simp only [frame_write_ops, List.mem_cons, List.not_mem_nil, or_false] at hop
  tauto

theorem mem_frame_cleanup_ops {count : Nat} {op : FSOp}
    (h : op ∈ frame_cleanup_ops count) :
    ∃ j, j < count ∧ op = .osRemoveOp (frame_path j) := by
  simp only [frame_cleanup_ops, List.mem_map, List.mem_range] at h
  obtain ⟨j, hj, hop⟩ := h
  exact ⟨j, hj, hop.symm⟩

theorem mem_mask_cleanup_ops {count : Nat} {op : FSOp}
    (h : op ∈ mask_cleanup_ops count) :
    ∃ j, j < count ∧ (op = .osRemoveOp (transformed_mask_path j)
      ∨ op = .osRemoveOp (inpaint_mask_path j)) := by
  simp only [mask_cleanup_ops, List.mem_flatMap, List.mem_range] at h
  obtain ⟨j, hj, hop⟩ := h
  refine ⟨j, hj, ?_⟩
  simp only [List.mem_cons, List.not_mem_nil, or_false] at hop
  tauto

theorem frames_write_ops_untouched (count : Nat) (p : String)
    (hf : pyStartsWith p "tmp/frames/" = false)
    (hm : pyStartsWith p "tmp/mask/" = false) :
    ∀ op ∈ frames_write_ops count, op.touchesKey p = false := by
  intro op hop
  obtain ⟨j, _, hcase⟩ := mem_frames_write_ops hop
  rcases hcase with h | h | h
  · subst h
    simp [FSOp.touchesKey, FSOp.createsKey, FSOp.deletesKey,
      beq_eq_false_iff_ne.mpr (tmask_path_ne p hm j)]
  · subst h
    simp [FSOp.touchesKey, FSOp.createsKey, FSOp.deletesKey,
      beq_eq_false_iff_ne.mpr (imask_path_ne p hm j)]
  · subst h
    simp [FSOp.touchesKey, FSOp.createsKey, FSOp.deletesKey,
      beq_eq_false_iff_ne.mpr (frame_path_ne p hf j)]

theorem frame_cleanup_ops_untouched (count : Nat) (p : String)
    (hf : pyStartsWith p "tmp/frames/" = false) :
    ∀ op ∈ frame_cleanup_ops count, op.touchesKey p = false := by
  intro op hop
  obtain ⟨j, _, h⟩ := mem_frame_cleanup_ops hop
  subst h
  simp [FSOp.touchesKey, FSOp.createsKey, FSOp.deletesKey,
    beq_eq_false_iff_ne.mpr (frame_path_ne p hf j)]

theorem mask_cleanup_ops_untouched (count : Nat) (p : String)
    (hm : pyStartsWith p "tmp/mask/" = false) :
    ∀ op ∈ mask_cleanup_ops count, op.touchesKey p = false := by
  intro op hop
  obtain ⟨j, _, hcase⟩ := mem_mask_cleanup_ops hop
  rcases hcase with h | h
  · subst h
    simp [FSOp.touchesKey, FSOp.createsKey, FSOp.deletesKey,
      beq_eq_false_iff_ne.mpr (tmask_path_ne p hm j)]
  · subst h
    simp [FSOp.touchesKey, FSOp.createsKey, FSOp.deletesKey,
      beq_eq_false_iff_ne.mpr (imask_path_ne p hm j)]

theorem touchesKey_false_of_createsKey_false_of_deletesKey_false
    {op : FSOp} {p : String} (hc : op.createsKey p = false)
    (hd : op.deletesKey p = false) : op.touchesKey p = false := by
  simp [FSOp.touchesKey, hc, hd]

theorem createsKey_false_of_touchesKey_false {op : FSOp} {p : String}
    (h : op.touchesKey p = false) : op.createsKey p = false := by
  simp only [FSOp.touchesKey, Bool.or_eq_false_iff] at h
  exact h.1

theorem deletesKey_false_of_touchesKey_false {op : FSOp} {p : String}
    (h : op.touchesKey p = false) : op.deletesKey p = false := by
  simp only [FSOp.touchesKey, Bool.or_eq_false_iff] at h
  exact h.2

theorem stabilize_video_ops_short (N : Nat) (fps : String)
    (framesOk movOk : Bool) (h : N ≤ smoothing_window) :
    stabilize_video_ops N fps framesOk movOk final_output_path
      = ([FSOp.makedirs temp_frames_dir, FSOp.makedirs temp_mask_dir], false) := by
  unfold stabilize_video_ops
  rw [saved_frame_count_of_le N h]
  simp [frames_write_ops]

theorem stabilize_video_ops_success (N : Nat) (fps : String)
    (h : smoothing_window < N) :
    stabilize_video_ops N fps true true final_output_path
      = ([FSOp.makedirs temp_frames_dir, FSOp.makedirs temp_mask_dir]
          ++ frames_write_ops (N - 1)
          ++ [FSOp.ffmpegRun (stab_frames_cmd fps stab_temp_output)
                stab_temp_output true]
          ++ [FSOp.ffmpegRun (stab_mov_cmd stab_temp_output final_output_path)
                final_output_path true,
              FSOp.osRemoveOp stab_temp_output]
          ++ frame_cleanup_ops (N - 1) ++ mask_cleanup_ops (N - 1)
          ++ [FSOp.rmdirIfEmpty temp_frames_dir, FSOp.rmdirIfEmpty temp_mask_dir],
         true) := by
  unfold stabilize_video_ops
  rw [saved_frame_count_eq N h]
  have h0 : ¬ (N - 1 = 0) := by
    simp only [smoothing_window] at h
    omega
  rw [if_neg h0]
  have hcond : (pyEndsWith final_output_path ".mov"
      && (pyReplace final_output_path ".mov" "_temp.avi" != final_output_path))
        = true := by decide
  simp only [stab_temp_output, hcond, if_true, List.append_assoc]

theorem stabilize_video_ops_encode_failure (N : Nat) (fps : String)
    (movOk : Bool) (h : smoothing_window < N) :
    stabilize_video_ops N fps false movOk final_output_path
      = ([FSOp.makedirs temp_frames_dir, FSOp.makedirs temp_mask_dir]
          ++ frames_write_ops (N - 1)
          ++ [FSOp.ffmpegRun (stab_frames_cmd fps stab_temp_output)
                stab_temp_output false],
         false) := by
  unfold stabilize_video_ops
  rw [saved_frame_count_eq N h]
  have h0 : ¬ (N - 1 = 0) := by
    simp only [smoothing_window] at h
    omega
  rw [if_neg h0]
  simp only [stab_temp_output, Bool.false_eq_true, if_false, List.append_assoc]

theorem look_cleanup_step (fs : FS) (p q : String) :
    FS.look (cleanup_step fs p) q
      = if p = q ∧ FS.look fs q = some .file then none else FS.look fs q := by
  unfold cleanup_step os_remove
  by_cases hex : FS.pathExists fs p
  · simp only [hex, if_true]
    cases hl : FS.look fs p with
    | none =>
      simp only [FS.pathExists, hl] at hex
      cases hex
    | some e =>
      cases e with
      | file =>
        rw [FS.look_removeKey]
        by_cases hpq : p = q
        · subst hpq
          simp [hl]
        · simp [hpq]
      | dir =>
        by_cases hpq : p = q
        · subst hpq
          simp [hl]
        · simp [hpq]
  · have hl : FS.look fs p = none := by
      simp only [FS.pathExists, Option.isSome] at hex
      cases h : FS.look fs p with
      | none => rfl
      | some e => rw [h] at hex; cases hex rfl
    simp only [hex, Bool.false_eq_true, if_false]
    by_cases hpq : p = q
    · subst hpq
      simp [hl]
    · simp [hpq]

theorem look_foldl_cleanup (paths : List String) (fs : FS) (q : String) :
    FS.look (paths.foldl cleanup_step fs) q
      = if q ∈ paths ∧ FS.look fs q = some .file then none
        else FS.look fs q := by
  induction paths generalizing fs with
  | nil => simp
  | cons p rest ih =>
    have hstep : (p :: rest).foldl cleanup_step fs
        = rest.foldl cleanup_step (cleanup_step fs p) := rfl
    rw [hstep, ih (cleanup_step fs p), look_cleanup_step]
    by_cases hpq : p = q
    · subst hpq
      by_cases hfile : FS.look fs p = some .file
      · simp [hfile]
      · simp [hfile]
    · simp only [hpq, false_and, if_false]
      have hiff : (q ∈ rest ∧ FS.look fs q = some .file)
          ↔ (q ∈ p :: rest ∧ FS.look fs q = some .file) := by
        simp only [List.mem_cons]
        constructor
        · rintro ⟨hm, hf⟩
          exact ⟨Or.inr hm, hf⟩
        · rintro ⟨hm, hf⟩
          rcases hm with hc | hc
          · exact absurd hc.symm hpq
          · exact ⟨hc, hf⟩
      exact if_congr hiff rfl rfl

theorem frame_cleanup_ops_creates_false (count : Nat) (p : String) :
    ∀ op ∈ frame_cleanup_ops count, op.createsKey p = false := by
  intro op hop
  obtain ⟨j, _, hj⟩ := mem_frame_cleanup_ops hop
  subst hj
  rfl

theorem mask_cleanup_ops_creates_false (count : Nat) (p : String) :
    ∀ op ∈ mask_cleanup_ops count, op.createsKey p = false := by
  intro op hop
  obtain ⟨j, _, hj⟩ := mem_mask_cleanup_ops hop
  rcases hj with hj | hj
  · subst hj; rfl
  · subst hj; rfl

theorem flatMap_frame_write_ops_deletes_false (l : List Nat) (p : String) :
    ∀ op ∈ l.flatMap frame_write_ops, op.deletesKey p = false := by
  intro op hop
  rw [List.mem_flatMap] at hop
  obtain ⟨j, _, hop⟩ := hop
  simp only [frame_write_ops, List.mem_cons, List.not_mem_nil, or_false] at hop
  rcases hop with hj | hj | hj
  · subst hj; rfl
  · subst hj; rfl
  · subst hj; rfl

theorem frames_write_ops_deletes_false (count : Nat) (p : String) :
    ∀ op ∈ frames_write_ops count, op.deletesKey p = false :=
  flatMap_frame_write_ops_deletes_false (List.range count) p

/-- The filesystem a stabilization job starts from: the input video
exists; none of the shared directories have been created yet. -/
def stab_initial_fs : FS := [("in.mov", FSEntry.file)]

/-- One run of the stabilization pipeline (the body of the handler)
against the representative input video and fresh filesystem. -/
def stab_run (env : StabEnv) : ApiResult × FS :=
  api_video_stabilization_body env "in.mov" stab_initial_fs

/-- The filesystem after directory setup, clip extraction and MOV
conversion all succeed. -/
def stab_fs3 : FS :=
  [("in.mov", FSEntry.file), ("tmp", FSEntry.dir),
   ("assets/public", FSEntry.dir), (temp_clip_path, FSEntry.file),
   (temp_mov_path, FSEntry.file)]

/-- `stab_fs3` after `stabilize_video` has created its two temp
directories. -/
def stab_pre_fs : FS :=
  stab_fs3 ++ [(temp_frames_dir, FSEntry.dir), (temp_mask_dir, FSEntry.dir)]

theorem stab_run_success_eq (N : Nat) (fps : String)
    (h : smoothing_window < N) :
    stab_run ⟨true, true, N, fps, true, true⟩
      = (.ok ("/api/assets/public/" ++ final_output_name) final_output_path,
         runOps (runOps stab_fs3
             ([FSOp.makedirs temp_frames_dir, FSOp.makedirs temp_mask_dir]
               ++ frames_write_ops (N - 1)
               ++ [FSOp.ffmpegRun (stab_frames_cmd fps stab_temp_output)
                     stab_temp_output true]
               ++ [FSOp.ffmpegRun (stab_mov_cmd stab_temp_output final_output_path)
                     final_output_path true,
                   FSOp.osRemoveOp stab_temp_output]
               ++ frame_cleanup_ops (N - 1)
               ++ mask_cleanup_ops (N - 1)
               ++ [FSOp.rmdirIfEmpty temp_frames_dir,
                   FSOp.rmdirIfEmpty temp_mask_dir]))
           [FSOp.cleanupOp temp_clip_path, FSOp.cleanupOp temp_mov_path]) := by
  simp only [stab_run, api_video_stabilization_body,
    stabilize_video_ops_success N fps h]
  have hf : (true = false) = False := by simp
  simp only [hf, if_false]
  rfl

theorem look_cleanup_pair_first (fs : FS) (p q : String)
    (hfile : FS.look fs p = some FSEntry.file) :
    FS.look (runOps fs [FSOp.cleanupOp p, FSOp.cleanupOp q]) p = none := by
  have h1 : runOps fs [FSOp.cleanupOp p, FSOp.cleanupOp q]
      = applyOp (applyOp fs (FSOp.cleanupOp p)) (FSOp.cleanupOp q) := rfl
  rw [h1]
  have h2 : FS.look (applyOp fs (FSOp.cleanupOp p)) p = none := by
    show FS.look (cleanup_step fs p) p = none
    rw [look_cleanup_step]
    simp [hfile]
  exact look_applyOp_none _ _ _ h2 (by rfl)

theorem look_cleanup_pair_second (fs : FS) (p q : String)
    (hfile : FS.look fs q = some FSEntry.file) (hpq : ¬ (p = q)) :
    FS.look (runOps fs [FSOp.cleanupOp p, FSOp.cleanupOp q]) q = none := by
  have h1 : runOps fs [FSOp.cleanupOp p, FSOp.cleanupOp q]
      = applyOp (applyOp fs (FSOp.cleanupOp p)) (FSOp.cleanupOp q) := rfl
  rw [h1]
  have h2 : FS.look (applyOp fs (FSOp.cleanupOp p)) q = some .file := by
    refine look_applyOp_some_stable fs (FSOp.cleanupOp p) q .file hfile ?_
    show (p == q) = false
    exact beq_eq_false_iff_ne.mpr hpq
  show FS.look (cleanup_step (applyOp fs (FSOp.cleanupOp p)) q) q = none
  rw [look_cleanup_step]
  simp [h2]

theorem stab_success_facts (N : Nat) (fps : String)
    (h : smoothing_window < N) :
    (stab_run ⟨true, true, N, fps, true, true⟩).1
        = .ok ("/api/assets/public/" ++ final_output_name) final_output_path
    ∧ FS.look (stab_run ⟨true, true, N, fps, true, true⟩).2 final_output_path
        = some .file
    ∧ FS.look (stab_run ⟨true, true, N, fps, true, true⟩).2 temp_clip_path = none
    ∧ FS.look (stab_run ⟨true, true, N, fps, true, true⟩).2 temp_mov_path = none
    ∧ FS.look (stab_run ⟨true, true, N, fps, true, true⟩).2 stab_temp_output = none
    ∧ (∀ j, j < N - 1 →
        FS.look (stab_run ⟨true, true, N, fps, true, true⟩).2 (frame_path j) = none
        ∧ FS.look (stab_run ⟨true, true, N, fps, true, true⟩).2
            (transformed_mask_path j) = none
        ∧ FS.look (stab_run ⟨true, true, N, fps, true, true⟩).2
            (inpaint_mask_path j) = none) := by
  rw [stab_run_success_eq N fps h]
  simp only [runOps_append]
  have hg1 : runOps stab_fs3
      [FSOp.makedirs temp_frames_dir, FSOp.makedirs temp_mask_dir]
        = stab_pre_fs := by decide
  rw [hg1]
  -- stage names: g2 = after frame and mask writes, g3 = after the
  -- frames-to-AVI encode, g4 = after MOV encode and temp AVI removal,
  -- g5/g6 = after the frame/mask cleanup loops, g7 = after the rmdirs,
  -- then the final cleanup of the temp clip and temp MOV
  have huB : ∀ p, pyStartsWith p "tmp/frames/" = false →
      pyStartsWith p "tmp/mask/" = false →
      FS.look (runOps stab_pre_fs (frames_write_ops (N - 1))) p
        = FS.look stab_pre_fs p := by
    intro p hf hm
    exact look_runOps_untouched _ _ _ (frames_write_ops_untouched (N - 1) p hf hm)
  refine ⟨trivial, ?_, ?_, ?_, ?_, ?_⟩
  · -- the final artifact exists
    have h2 : FS.look (runOps stab_pre_fs (frames_write_ops (N - 1)))
        final_output_path = none := by
      rw [huB final_output_path rfl rfl]
      decide
    have h3 : FS.look (runOps (runOps stab_pre_fs (frames_write_ops (N - 1)))
        [FSOp.ffmpegRun (stab_frames_cmd fps stab_temp_output)
          stab_temp_output true]) final_output_path = none := by
      rw [look_runOps_untouched _ _ _ (List.forall_mem_singleton.mpr (by rfl))]
      exact h2
    have h4 : FS.look (runOps (runOps (runOps stab_pre_fs
        (frames_write_ops (N - 1)))
        [FSOp.ffmpegRun (stab_frames_cmd fps stab_temp_output)
          stab_temp_output true])
        [FSOp.ffmpegRun (stab_mov_cmd stab_temp_output final_output_path)
          final_output_path true,
         FSOp.osRemoveOp stab_temp_output]) final_output_path = some .file := by
      have hcreate : FS.look (applyOp (runOps (runOps stab_pre_fs
          (frames_write_ops (N - 1)))
          [FSOp.ffmpegRun (stab_frames_cmd fps stab_temp_output)
            stab_temp_output true])
          (FSOp.ffmpegRun (stab_mov_cmd stab_temp_output final_output_path)
            final_output_path true)) final_output_path = some .file := by
        exact FS.look_addIfAbsent_self_of_none _ _ _ h3
      exact look_applyOp_some_stable _ (FSOp.osRemoveOp stab_temp_output)
        final_output_path FSEntry.file hcreate (by rfl)
    have h5 := look_runOps_some_stable (frame_cleanup_ops (N - 1)) _ _ _ h4
      (fun op hop => deletesKey_false_of_touchesKey_false
        (frame_cleanup_ops_untouched (N - 1) final_output_path rfl op hop))
    have h6 := look_runOps_some_stable (mask_cleanup_ops (N - 1)) _ _ _ h5
      (fun op hop => deletesKey_false_of_touchesKey_false
        (mask_cleanup_ops_untouched (N - 1) final_output_path rfl op hop))
    have h7 := look_runOps_some_stable
      [FSOp.rmdirIfEmpty temp_frames_dir, FSOp.rmdirIfEmpty temp_mask_dir]
      _ _ _ h6 (by
        refine List.forall_mem_cons.mpr ⟨by rfl, ?_⟩
        exact List.forall_mem_singleton.mpr (by rfl))
    exact look_runOps_some_stable
      [FSOp.cleanupOp temp_clip_path, FSOp.cleanupOp temp_mov_path]
      _ _ _ h7 (by
        refine List.forall_mem_cons.mpr ⟨by rfl, ?_⟩
        exact List.forall_mem_singleton.mpr (by rfl))
  · -- the temp clip is removed
    have h2 : FS.look (runOps stab_pre_fs (frames_write_ops (N - 1)))
        temp_clip_path = some .file := by
      rw [huB temp_clip_path rfl rfl]
      decide
    have h3 := look_runOps_some_stable
      [FSOp.ffmpegRun (stab_frames_cmd fps stab_temp_output)
        stab_temp_output true] _ _ _ h2
      (List.forall_mem_singleton.mpr (by rfl))
    have h4 := look_runOps_some_stable
      [FSOp.ffmpegRun (stab_mov_cmd stab_temp_output final_output_path)
        final_output_path true, FSOp.osRemoveOp stab_temp_output] _ _ _ h3
      (by
        refine List.forall_mem_cons.mpr ⟨by rfl, ?_⟩
        exact List.forall_mem_singleton.mpr (by rfl))
    have h5 := look_runOps_some_stable (frame_cleanup_ops (N - 1)) _ _ _ h4
      (fun op hop => deletesKey_false_of_touchesKey_false
        (frame_cleanup_ops_untouched (N - 1) temp_clip_path rfl op hop))
    have h6 := look_runOps_some_stable (mask_cleanup_ops (N - 1)) _ _ _ h5
      (fun op hop => deletesKey_false_of_touchesKey_false
        (mask_cleanup_ops_untouched (N - 1) temp_clip_path rfl op hop))
    have h7 := look_runOps_some_stable
      [FSOp.rmdirIfEmpty temp_frames_dir, FSOp.rmdirIfEmpty temp_mask_dir]
      _ _ _ h6 (by
        refine List.forall_mem_cons.mpr ⟨by rfl, ?_⟩
        exact List.forall_mem_singleton.mpr (by rfl))
    exact look_cleanup_pair_first _ temp_clip_path temp_mov_path h7
  · -- the temp MOV is removed
    have h2 : FS.look (runOps stab_pre_fs (frames_write_ops (N - 1)))
        temp_mov_path = some .file := by
      rw [huB temp_mov_path rfl rfl]
      decide
    have h3 := look_runOps_some_stable
      [FSOp.ffmpegRun (stab_frames_cmd fps stab_temp_output)
        stab_temp_output true] _ _ _ h2
      (List.forall_mem_singleton.mpr (by rfl))
    have h4 := look_runOps_some_stable
      [FSOp.ffmpegRun (stab_mov_cmd stab_temp_output final_output_path)
        final_output_path true, FSOp.osRemoveOp stab_temp_output] _ _ _ h3
      (by
        refine List.forall_mem_cons.mpr ⟨by rfl, ?_⟩
        exact List.forall_mem_singleton.mpr (by rfl))
    have h5 := look_runOps_some_stable (frame_cleanup_ops (N - 1)) _ _ _ h4
      (fun op hop => deletesKey_false_of_touchesKey_false
        (frame_cleanup_ops_untouched (N - 1) temp_mov_path rfl op hop))
    have h6 := look_runOps_some_stable (mask_cleanup_ops (N - 1)) _ _ _ h5
      (fun op hop => deletesKey_false_of_touchesKey_false
        (mask_cleanup_ops_untouched (N - 1) temp_mov_path rfl op hop))
    have h7 := look_runOps_some_stable
      [FSOp.rmdirIfEmpty temp_frames_dir, FSOp.rmdirIfEmpty temp_mask_dir]
      _ _ _ h6 (by
        refine List.forall_mem_cons.mpr ⟨by rfl, ?_⟩
        exact List.forall_mem_singleton.mpr (by rfl))
    exact look_cleanup_pair_second _ temp_clip_path temp_mov_path h7 (by decide)
  · -- the temp AVI is removed
    have h4 : FS.look (runOps (runOps (runOps stab_pre_fs
        (frames_write_ops (N - 1)))
        [FSOp.ffmpegRun (stab_frames_cmd fps stab_temp_output)
          stab_temp_output true])
        [FSOp.ffmpegRun (stab_mov_cmd stab_temp_output final_output_path)
          final_output_path true,
         FSOp.osRemoveOp stab_temp_output]) stab_temp_output = none := by
      show FS.look (FS.removeKey _ stab_temp_output) stab_temp_output = none
      rw [FS.look_removeKey]
      simp
    have h5 := look_runOps_none (frame_cleanup_ops (N - 1)) _ _ h4
      (frame_cleanup_ops_creates_false (N - 1) stab_temp_output)
    have h6 := look_runOps_none (mask_cleanup_ops (N - 1)) _ _ h5
      (mask_cleanup_ops_creates_false (N - 1) stab_temp_output)
    have h7 := look_runOps_none
      [FSOp.rmdirIfEmpty temp_frames_dir, FSOp.rmdirIfEmpty temp_mask_dir]
      _ _ h6 (by
        refine List.forall_mem_cons.mpr ⟨by rfl, ?_⟩
        exact List.forall_mem_singleton.mpr (by rfl))
    exact look_runOps_none
      [FSOp.cleanupOp temp_clip_path, FSOp.cleanupOp temp_mov_path]
      _ _ h7 (by
        refine List.forall_mem_cons.mpr ⟨by rfl, ?_⟩
        exact List.forall_mem_singleton.mpr (by rfl))
  · -- every frame and mask file is removed
    intro j hj
    have hmemF : FSOp.osRemoveOp (frame_path j) ∈ frame_cleanup_ops (N - 1) := by
      exact List.mem_map.mpr ⟨j, List.mem_range.mpr hj, rfl⟩
    have hmemT : FSOp.osRemoveOp (transformed_mask_path j)
        ∈ mask_cleanup_ops (N - 1) := by
      refine List.mem_flatMap.mpr ⟨j, List.mem_range.mpr hj, ?_⟩
      exact List.mem_cons_self _ _
    have hmemI : FSOp.osRemoveOp (inpaint_mask_path j)
        ∈ mask_cleanup_ops (N - 1) := by
      refine List.mem_flatMap.mpr ⟨j, List.mem_range.mpr hj, ?_⟩
      exact List.mem_cons_of_mem _ (List.mem_cons_self _ _)
    refine ⟨?_, ?_, ?_⟩
    · have h5 : FS.look (runOps (runOps (runOps (runOps stab_pre_fs
          (frames_write_ops (N - 1)))
          [FSOp.ffmpegRun (stab_frames_cmd fps stab_temp_output)
            stab_temp_output true])
          [FSOp.ffmpegRun (stab_mov_cmd stab_temp_output final_output_path)
            final_output_path true, FSOp.osRemoveOp stab_temp_output])
          (frame_cleanup_ops (N - 1))) (frame_path j) = none := by
        exact look_runOps_none_of_remove_mem _ _ _ hmemF
          (frame_cleanup_ops_creates_false (N - 1) (frame_path j))
      have h6 := look_runOps_none (mask_cleanup_ops (N - 1)) _ _ h5
        (mask_cleanup_ops_creates_false (N - 1) (frame_path j))
      have h7 := look_runOps_none
        [FSOp.rmdirIfEmpty temp_frames_dir, FSOp.rmdirIfEmpty temp_mask_dir]
        _ _ h6 (by
          refine List.forall_mem_cons.mpr ⟨by rfl, ?_⟩
          exact List.forall_mem_singleton.mpr (by rfl))
      exact look_runOps_none
        [FSOp.cleanupOp temp_clip_path, FSOp.cleanupOp temp_mov_path]
        _ _ h7 (by
          refine List.forall_mem_cons.mpr ⟨by rfl, ?_⟩
          exact List.forall_mem_singleton.mpr (by rfl))
    · have h6 : FS.look (runOps (runOps (runOps (runOps (runOps stab_pre_fs
          (frames_write_ops (N - 1)))
          [FSOp.ffmpegRun (stab_frames_cmd fps stab_temp_output)
            stab_temp_output true])
          [FSOp.ffmpegRun (stab_mov_cmd stab_temp_output final_output_path)
            final_output_path true, FSOp.osRemoveOp stab_temp_output])
          (frame_cleanup_ops (N - 1))) (mask_cleanup_ops (N - 1)))
          (transformed_mask_path j) = none := by
        exact look_runOps_none_of_remove_mem _ _ _ hmemT
          (mask_cleanup_ops_creates_false (N - 1) (transformed_mask_path j))
      have h7 := look_runOps_none
        [FSOp.rmdirIfEmpty temp_frames_dir, FSOp.rmdirIfEmpty temp_mask_dir]
        _ _ h6 (by
          refine List.forall_mem_cons.mpr ⟨by rfl, ?_⟩
          exact List.forall_mem_singleton.mpr (by rfl))
      exact look_runOps_none
        [FSOp.cleanupOp temp_clip_path, FSOp.cleanupOp temp_mov_path]
        _ _ h7 (by
          refine List.forall_mem_cons.mpr ⟨by rfl, ?_⟩
          exact List.forall_mem_singleton.mpr (by rfl))
    · have h6 : FS.look (runOps (runOps (runOps (runOps (runOps stab_pre_fs
          (frames_write_ops (N - 1)))
          [FSOp.ffmpegRun (stab_frames_cmd fps stab_temp_output)
            stab_temp_output true])
          [FSOp.ffmpegRun (stab_mov_cmd stab_temp_output final_output_path)
            final_output_path true, FSOp.osRemoveOp stab_temp_output])
          (frame_cleanup_ops (N - 1))) (mask_cleanup_ops (N - 1)))
          (inpaint_mask_path j) = none := by
        exact look_runOps_none_of_remove_mem _ _ _ hmemI
          (mask_cleanup_ops_creates_false (N - 1) (inpaint_mask_path j))
      have h7 := look_runOps_none
        [FSOp.rmdirIfEmpty temp_frames_dir, FSOp.rmdirIfEmpty temp_mask_dir]
        _ _ h6 (by
          refine List.forall_mem_cons.mpr ⟨by rfl, ?_⟩
          exact List.forall_mem_singleton.mpr (by rfl))
      exact look_runOps_none
        [FSOp.cleanupOp temp_clip_path, FSOp.cleanupOp temp_mov_path]
        _ _ h7 (by
          refine List.forall_mem_cons.mpr ⟨by rfl, ?_⟩
          exact List.forall_mem_singleton.mpr (by rfl))

theorem flatMap_frame_write_ops_untouched (l : List Nat) (p : String)
    (hf : pyStartsWith p "tmp/frames/" = false)
    (hm : pyStartsWith p "tmp/mask/" = false) :
    ∀ op ∈ l.flatMap frame_write_ops, op.touchesKey p = false := by
  intro op hop
  rw [List.mem_flatMap] at hop
  obtain ⟨j, _, hop⟩ := hop
  simp only [frame_write_ops, List.mem_cons, List.not_mem_nil, or_false] at hop
  rcases hop with hj | hj | hj
  · subst hj
    simp [FSOp.touchesKey, FSOp.createsKey, FSOp.deletesKey,
      beq_eq_false_iff_ne.mpr (tmask_path_ne p hm j)]
  · subst hj
    simp [FSOp.touchesKey, FSOp.createsKey, FSOp.deletesKey,
      beq_eq_false_iff_ne.mpr (imask_path_ne p hm j)]
  · subst hj
    simp [FSOp.touchesKey, FSOp.createsKey, FSOp.deletesKey,
      beq_eq_false_iff_ne.mpr (frame_path_ne p hf j)]

theorem stab_run_encode_failure_eq (N : Nat) (fps : String) (movOk : Bool)
    (h : smoothing_window < N) :
    stab_run ⟨true, true, N, fps, false, movOk⟩
      = (.httpError 400 "Failed to stabilize video",
         runOps (runOps stab_fs3
             ([FSOp.makedirs temp_frames_dir, FSOp.makedirs temp_mask_dir]
               ++ frames_write_ops (N - 1)
               ++ [FSOp.ffmpegRun (stab_frames_cmd fps stab_temp_output)
                     stab_temp_output false]))
           [FSOp.cleanupOp temp_clip_path, FSOp.cleanupOp temp_mov_path]) := by
  simp only [stab_run, api_video_stabilization_body,
    stabilize_video_ops_encode_failure N fps movOk h]
  have hf : (true = false) = False := by simp
  simp only [hf, if_false]
  rfl

theorem stab_encode_failure_facts (N : Nat) (fps : String) (movOk : Bool)
    (h : smoothing_window < N) :
    (stab_run ⟨true, true, N, fps, false, movOk⟩).1
        = .httpError 400 "Failed to stabilize video"
    ∧ FS.look (stab_run ⟨true, true, N, fps, false, movOk⟩).2 (frame_path 0)
        = some .file
    ∧ FS.look (stab_run ⟨true, true, N, fps, false, movOk⟩).2
        (transformed_mask_path 0) = some .file
    ∧ FS.look (stab_run ⟨true, true, N, fps, false, movOk⟩).2
        (inpaint_mask_path 0) = some .file
    ∧ FS.look (stab_run ⟨true, true, N, fps, false, movOk⟩).2 final_output_path
        = none
    ∧ FS.look (stab_run ⟨true, true, N, fps, false, movOk⟩).2 temp_frames_dir
        = some .dir
    ∧ FS.look (stab_run ⟨true, true, N, fps, false, movOk⟩).2 temp_mask_dir
        = some .dir := by
  rw [stab_run_encode_failure_eq N fps movOk h]
  simp only [runOps_append]
  have hg1 : runOps stab_fs3
      [FSOp.makedirs temp_frames_dir, FSOp.makedirs temp_mask_dir]
        = stab_pre_fs := by decide
  rw [hg1]
  obtain ⟨k, hk⟩ : ∃ k, N - 1 = k + 1 := by
    refine ⟨N - 2, ?_⟩
    simp only [smoothing_window] at h
    omega
  rw [hk]
  have hsplit : frames_write_ops (k + 1)
      = frame_write_ops 0
        ++ (List.map Nat.succ (List.range k)).flatMap frame_write_ops := by
    unfold frames_write_ops
    rw [List.range_succ_eq_map]
    rfl
  rw [hsplit, runOps_append]
  have hw0 : runOps stab_pre_fs (frame_write_ops 0)
      = stab_pre_fs ++ [(transformed_mask_path 0, FSEntry.file),
          (inpaint_mask_path 0, FSEntry.file), (frame_path 0, FSEntry.file)] := by
    decide
  rw [hw0]
  have huTail : ∀ p, pyStartsWith p "tmp/frames/" = false →
      pyStartsWith p "tmp/mask/" = false →
      FS.look (runOps (stab_pre_fs ++ [(transformed_mask_path 0, FSEntry.file),
          (inpaint_mask_path 0, FSEntry.file), (frame_path 0, FSEntry.file)])
          ((List.map Nat.succ (List.range k)).flatMap frame_write_ops)) p
        = FS.look (stab_pre_fs ++ [(transformed_mask_path 0, FSEntry.file),
          (inpaint_mask_path 0, FSEntry.file), (frame_path 0, FSEntry.file)]) p := by
    intro p hf hm
    exact look_runOps_untouched _ _ _
      (flatMap_frame_write_ops_untouched _ p hf hm)
  have hstable : ∀ (p : String) (e : FSEntry),
      FS.look (stab_pre_fs ++ [(transformed_mask_path 0, FSEntry.file),
        (inpaint_mask_path 0, FSEntry.file), (frame_path 0, FSEntry.file)]) p
        = some e →
      ((FSOp.ffmpegRun (stab_frames_cmd fps stab_temp_output)
          stab_temp_output false).deletesKey p = false) →
      ((FSOp.cleanupOp temp_clip_path).deletesKey p = false) →
      ((FSOp.cleanupOp temp_mov_path).deletesKey p = false) →
      FS.look (runOps (runOps (runOps (stab_pre_fs
          ++ [(transformed_mask_path 0, FSEntry.file),
              (inpaint_mask_path 0, FSEntry.file), (frame_path 0, FSEntry.file)])
          ((List.map Nat.succ (List.range k)).flatMap frame_write_ops))
          [FSOp.ffmpegRun (stab_frames_cmd fps stab_temp_output)
            stab_temp_output false])
          [FSOp.cleanupOp temp_clip_path, FSOp.cleanupOp temp_mov_path]) p
        = some e := by
    intro p e hp henc hcc hcm
    have s1 := look_runOps_some_stable _ _ _ _ hp
      (flatMap_frame_write_ops_deletes_false (List.map Nat.succ (List.range k)) p)
    have s2 := look_runOps_some_stable
      [FSOp.ffmpegRun (stab_frames_cmd fps stab_temp_output)
        stab_temp_output false] _ _ _ s1
      (List.forall_mem_singleton.mpr henc)
    exact look_runOps_some_stable
      [FSOp.cleanupOp temp_clip_path, FSOp.cleanupOp temp_mov_path] _ _ _ s2
      (List.forall_mem_cons.mpr ⟨hcc, List.forall_mem_singleton.mpr hcm⟩)
  refine ⟨trivial, ?_, ?_, ?_, ?_, ?_, ?_⟩
  · exact hstable (frame_path 0) .file (by decide) (by rfl) (by rfl) (by rfl)
  · exact hstable (transformed_mask_path 0) .file (by decide) (by rfl)
      (by rfl) (by rfl)
  · exact hstable (inpaint_mask_path 0) .file (by decide) (by rfl)
      (by rfl) (by rfl)
  · have h1 : FS.look (runOps (stab_pre_fs
        ++ [(transformed_mask_path 0, FSEntry.file),
            (inpaint_mask_path 0, FSEntry.file), (frame_path 0, FSEntry.file)])
        ((List.map Nat.succ (List.range k)).flatMap frame_write_ops))
        final_output_path = none := by
      rw [huTail final_output_path rfl rfl]
      decide
    have h2 := look_runOps_none
      [FSOp.ffmpegRun (stab_frames_cmd fps stab_temp_output)
        stab_temp_output false] _ _ h1
      (List.forall_mem_singleton.mpr (by rfl))
    exact look_runOps_none
      [FSOp.cleanupOp temp_clip_path, FSOp.cleanupOp temp_mov_path] _ _ h2
      (List.forall_mem_cons.mpr ⟨by rfl, List.forall_mem_singleton.mpr (by rfl)⟩)
  · have h1 : FS.look (runOps (stab_pre_fs
        ++ [(transformed_mask_path 0, FSEntry.file),
            (inpaint_mask_path 0, FSEntry.file), (frame_path 0, FSEntry.file)])
        ((List.map Nat.succ (List.range k)).flatMap frame_write_ops))
        temp_frames_dir = some .dir := by
      rw [huTail temp_frames_dir rfl rfl]
      decide
    have h2 := look_runOps_some_stable
      [FSOp.ffmpegRun (stab_frames_cmd fps stab_temp_output)
        stab_temp_output false] _ _ _ h1
      (List.forall_mem_singleton.mpr (by rfl))
    exact look_runOps_some_stable
      [FSOp.cleanupOp temp_clip_path, FSOp.cleanupOp temp_mov_path] _ _ _ h2
      (List.forall_mem_cons.mpr ⟨by rfl, List.forall_mem_singleton.mpr (by rfl)⟩)
  · have h1 : FS.look (runOps (stab_pre_fs
        ++ [(transformed_mask_path 0, FSEntry.file),
            (inpaint_mask_path 0, FSEntry.file), (frame_path 0, FSEntry.file)])
        ((List.map Nat.succ (List.range k)).flatMap frame_write_ops))
        temp_mask_dir = some .dir := by
      rw [huTail temp_mask_dir rfl rfl]
      decide
    have h2 := look_runOps_some_stable
      [FSOp.ffmpegRun (stab_frames_cmd fps stab_temp_output)
        stab_temp_output false] _ _ _ h1
      (List.forall_mem_singleton.mpr (by rfl))
    exact look_runOps_some_stable
      [FSOp.cleanupOp temp_clip_path, FSOp.cleanupOp temp_mov_path] _ _ _ h2
      (List.forall_mem_cons.mpr ⟨by rfl, List.forall_mem_singleton.mpr (by rfl)⟩)

theorem FS.look_none_of_keys_ne (p : String) :
    ∀ fs : FS, (∀ x ∈ fs, ¬ (x.1 = p)) → FS.look fs p = none := by
  intro fs
  induction fs with
  | nil => intro _; rfl
  | cons x rest ih =>
    intro h
    obtain ⟨q, e⟩ := x
    have hq : ¬ (q = p) := h (q, e) (List.mem_cons_self _ _)
    simp only [FS.look, if_neg hq]
    exact ih (fun y hy => h y (List.mem_cons_of_mem _ hy))

theorem look_stab_pre_fs_none (p : String)
    (h1 : ¬ ("in.mov" = p)) (h2 : ¬ ("tmp" = p))
    (h3 : ¬ ("assets/public" = p)) (h4 : ¬ (temp_clip_path = p))
    (h5 : ¬ (temp_mov_path = p)) (h6 : ¬ (temp_frames_dir = p))
    (h7 : ¬ (temp_mask_dir = p)) :
    FS.look stab_pre_fs p = none := by
  refine FS.look_none_of_keys_ne p stab_pre_fs ?_
  intro x hx
  simp only [stab_pre_fs, stab_fs3, List.mem_append, List.mem_cons,
    List.not_mem_nil, or_false] at hx
  rcases hx with ((hx | hx | hx | hx | hx) | (hx | hx))
  · subst hx; exact h1
  · subst hx; exact h2
  · subst hx; exact h3
  · subst hx; exact h4
  · subst hx; exact h5
  · subst hx; exact h6
  · subst hx; exact h7

theorem look_stab_pre_fs_frame (j : Nat) :
    FS.look stab_pre_fs (frame_path j) = none :=
  look_stab_pre_fs_none (frame_path j)
    (fun hc => frame_path_ne "in.mov" rfl j hc.symm)
    (fun hc => frame_path_ne "tmp" rfl j hc.symm)
    (fun hc => frame_path_ne "assets/public" rfl j hc.symm)
    (fun hc => frame_path_ne temp_clip_path rfl j hc.symm)
    (fun hc => frame_path_ne temp_mov_path rfl j hc.symm)
    (fun hc => frame_path_ne temp_frames_dir rfl j hc.symm)
    (fun hc => frame_path_ne temp_mask_dir rfl j hc.symm)

theorem look_stab_pre_fs_tmask (j : Nat) :
    FS.look stab_pre_fs (transformed_mask_path j) = none :=
  look_stab_pre_fs_none (transformed_mask_path j)
    (fun hc => tmask_path_ne "in.mov" rfl j hc.symm)
    (fun hc => tmask_path_ne "tmp" rfl j hc.symm)
    (fun hc => tmask_path_ne "assets/public" rfl j hc.symm)
    (fun hc => tmask_path_ne temp_clip_path rfl j hc.symm)
    (fun hc => tmask_path_ne temp_mov_path rfl j hc.symm)
    (fun hc => tmask_path_ne temp_frames_dir rfl j hc.symm)
    (fun hc => tmask_path_ne temp_mask_dir rfl j hc.symm)

theorem look_stab_pre_fs_imask (j : Nat) :
    FS.look stab_pre_fs (inpaint_mask_path j) = none :=
  look_stab_pre_fs_none (inpaint_mask_path j)
    (fun hc => imask_path_ne "in.mov" rfl j hc.symm)
    (fun hc => imask_path_ne "tmp" rfl j hc.symm)
    (fun hc => imask_path_ne "assets/public" rfl j hc.symm)
    (fun hc => imask_path_ne temp_clip_path rfl j hc.symm)
    (fun hc => imask_path_ne temp_mov_path rfl j hc.symm)
    (fun hc => imask_path_ne temp_frames_dir rfl j hc.symm)
    (fun hc => imask_path_ne temp_mask_dir rfl j hc.symm)

theorem look_imwrite_self (fs : FS) (p : String)
    (h : FS.look fs p = none ∨ FS.look fs p = some FSEntry.file) :
    FS.look (applyOp fs (FSOp.imwrite p)) p = some FSEntry.file := by
  rcases h with h | h
  · exact FS.look_addIfAbsent_self_of_none fs p FSEntry.file h
  · show FS.look (FS.addIfAbsent fs p FSEntry.file) p = some FSEntry.file
    unfold FS.addIfAbsent
    have hex : FS.pathExists fs p = true := by simp [FS.pathExists, h]
    simp [hex, h]

theorem look_imwrite_none_or_file (fs : FS) (q p : String)
    (h : FS.look fs p = none ∨ FS.look fs p = some FSEntry.file) :
    FS.look (applyOp fs (FSOp.imwrite q)) p = none
      ∨ FS.look (applyOp fs (FSOp.imwrite q)) p = some FSEntry.file := by
  by_cases hqp : q = p
  · subst hqp
    exact Or.inr (look_imwrite_self fs q h)
  · have he : FS.look (applyOp fs (FSOp.imwrite q)) p = FS.look fs p :=
      FS.look_addIfAbsent_other fs q p FSEntry.file hqp
    rw [he]
    exact h

theorem look_runOps_imwrites_none_or_file (ops : List FSOp) :
    ∀ (fs : FS) (p : String),
      (∀ op ∈ ops, ∃ q, op = FSOp.imwrite q) →
      (FS.look fs p = none ∨ FS.look fs p = some FSEntry.file) →
      (FS.look (runOps fs ops) p = none
        ∨ FS.look (runOps fs ops) p = some FSEntry.file) := by
  induction ops with
  | nil =>
    intro fs p _ h
    exact h
  | cons op rest ih =>
    intro fs p hops h
    obtain ⟨q, hq⟩ := hops op (List.mem_cons_self _ _)
    subst hq
    exact ih (applyOp fs (FSOp.imwrite q)) p
      (fun o ho => hops o (List.mem_cons_of_mem _ ho))
      (look_imwrite_none_or_file fs q p h)

theorem flatMap_frame_write_ops_imwrites (l : List Nat) :
    ∀ op ∈ l.flatMap frame_write_ops, ∃ q, op = FSOp.imwrite q := by
  intro op hop
  rw [List.mem_flatMap] at hop
  obtain ⟨j, _, hop⟩ := hop
  simp only [frame_write_ops, List.mem_cons, List.not_mem_nil, or_false] at hop
  rcases hop with hj | hj | hj
  · exact ⟨transformed_mask_path j, hj⟩
  · exact ⟨inpaint_mask_path j, hj⟩
  · exact ⟨frame_path j, hj⟩

theorem frames_write_ops_split (count j : Nat) (hj : j < count) :
    frames_write_ops count
      = (List.range' 0 j).flatMap frame_write_ops
        ++ (frame_write_ops j
            ++ (List.range' (j + 1) (count - j - 1)).flatMap
                frame_write_ops) := by
  obtain ⟨k, hk⟩ : ∃ k, count = j + (k + 1) := ⟨count - j - 1, by omega⟩
  subst hk
  have hk2 : j + (k + 1) - j - 1 = k := by omega
  rw [hk2]
  unfold frames_write_ops
  rw [List.range_eq_range']
  rw [Nat.add_comm j (k + 1)]
  rw [← List.range'_append_1 0 j (k + 1)]
  simp only [Nat.zero_add, List.range'_succ, List.flatMap_append,
    List.flatMap_cons]

theorem look_run_fw_triple (X : FS) (j : Nat) (p : String)
    (hmem : p = transformed_mask_path j ∨ p = inpaint_mask_path j
      ∨ p = frame_path j)
    (hp : FS.look X p = none ∨ FS.look X p = some FSEntry.file) :
    FS.look (runOps X (frame_write_ops j)) p = some FSEntry.file := by
  have hrun : runOps X (frame_write_ops j)
      = applyOp (applyOp (applyOp X
          (FSOp.imwrite (transformed_mask_path j)))
          (FSOp.imwrite (inpaint_mask_path j)))
          (FSOp.imwrite (frame_path j)) := rfl
  rw [hrun]
  rcases hmem with rfl | rfl | rfl
  · have h1 := look_imwrite_self X (transformed_mask_path j) hp
    have h2 := look_applyOp_some_stable _
      (FSOp.imwrite (inpaint_mask_path j)) _ _ h1 (by rfl)
    exact look_applyOp_some_stable _
      (FSOp.imwrite (frame_path j)) _ _ h2 (by rfl)
  · have h1 := look_imwrite_none_or_file X (transformed_mask_path j) _ hp
    have h2 := look_imwrite_self _ (inpaint_mask_path j) h1
    exact look_applyOp_some_stable _
      (FSOp.imwrite (frame_path j)) _ _ h2 (by rfl)
  · have h1 := look_imwrite_none_or_file X (transformed_mask_path j) _ hp
    have h2 := look_imwrite_none_or_file _ (inpaint_mask_path j) _ h1
    exact look_imwrite_self _ (frame_path j) h2

theorem look_writes_file (X : FS) (count j : Nat) (hj : j < count)
    (p : String)
    (hmem : p = transformed_mask_path j ∨ p = inpaint_mask_path j
      ∨ p = frame_path j)
    (hp : FS.look X p = none ∨ FS.look X p = some FSEntry.file) :
    FS.look (runOps X (frames_write_ops count)) p = some FSEntry.file := by
  rw [frames_write_ops_split count j hj, runOps_append, runOps_append]
  have hP := look_runOps_imwrites_none_or_file
    ((List.range' 0 j).flatMap frame_write_ops) X p
    (flatMap_frame_write_ops_imwrites _) hp
  have hT := look_run_fw_triple _ j p hmem hP
  exact look_runOps_some_stable _ _ _ _ hT
    (flatMap_frame_write_ops_deletes_false _ p)

theorem stab_encode_failure_files_remain (N : Nat) (fps : String)
    (movOk : Bool) (h : smoothing_window < N) :
    FS.look (stab_run ⟨true, true, N, fps, false, movOk⟩).2 temp_clip_path
        = none
    ∧ FS.look (stab_run ⟨true, true, N, fps, false, movOk⟩).2 temp_mov_path
        = none
    ∧ ∀ j, j < N - 1 →
        FS.look (stab_run ⟨true, true, N, fps, false, movOk⟩).2 (frame_path j)
            = some FSEntry.file
        ∧ FS.look (stab_run ⟨true, true, N, fps, false, movOk⟩).2
            (transformed_mask_path j) = some FSEntry.file
        ∧ FS.look (stab_run ⟨true, true, N, fps, false, movOk⟩).2
            (inpaint_mask_path j) = some FSEntry.file := by
  rw [stab_run_encode_failure_eq N fps movOk h]
  simp only [runOps_append]
  have hg1 : runOps stab_fs3
      [FSOp.makedirs temp_frames_dir, FSOp.makedirs temp_mask_dir]
        = stab_pre_fs := by decide
  rw [hg1]
  refine ⟨?_, ?_, ?_⟩
  · have h2 : FS.look (runOps stab_pre_fs (frames_write_ops (N - 1)))
        temp_clip_path = some FSEntry.file := by
      rw [look_runOps_untouched _ _ _
        (frames_write_ops_untouched (N - 1) temp_clip_path rfl rfl)]
      decide
    have h3 := look_runOps_some_stable
      [FSOp.ffmpegRun (stab_frames_cmd fps stab_temp_output)
        stab_temp_output false] _ _ _ h2
      (List.forall_mem_singleton.mpr (by rfl))
    exact look_cleanup_pair_first _ temp_clip_path temp_mov_path h3
  · have h2 : FS.look (runOps stab_pre_fs (frames_write_ops (N - 1)))
        temp_mov_path = some FSEntry.file := by
      rw [look_runOps_untouched _ _ _
        (frames_write_ops_untouched (N - 1) temp_mov_path rfl rfl)]
      decide
    have h3 := look_runOps_some_stable
      [FSOp.ffmpegRun (stab_frames_cmd fps stab_temp_output)
        stab_temp_output false] _ _ _ h2
      (List.forall_mem_singleton.mpr (by rfl))
    exact look_cleanup_pair_second _ temp_clip_path temp_mov_path h3
      (by decide)
  · intro j hj
    have hstep : ∀ (q : String),
        (q = transformed_mask_path j ∨ q = inpaint_mask_path j
          ∨ q = frame_path j) →
        FS.look stab_pre_fs q = none →
        ((FSOp.cleanupOp temp_clip_path).deletesKey q = false) →
        ((FSOp.cleanupOp temp_mov_path).deletesKey q = false) →
        FS.look (runOps (runOps (runOps stab_pre_fs
            (frames_write_ops (N - 1)))
            [FSOp.ffmpegRun (stab_frames_cmd fps stab_temp_output)
              stab_temp_output false])
            [FSOp.cleanupOp temp_clip_path, FSOp.cleanupOp temp_mov_path]) q
          = some FSEntry.file := by
      intro q hmem h0 hcc hcm
      have hw := look_writes_file stab_pre_fs (N - 1) j hj q hmem (Or.inl h0)
      have he := look_runOps_some_stable
        [FSOp.ffmpegRun (stab_frames_cmd fps stab_temp_output)
          stab_temp_output false] _ _ _ hw
        (List.forall_mem_singleton.mpr (by rfl))
      exact look_runOps_some_stable
        [FSOp.cleanupOp temp_clip_path, FSOp.cleanupOp temp_mov_path]
        _ _ _ he
        (List.forall_mem_cons.mpr ⟨hcc, List.forall_mem_singleton.mpr hcm⟩)
    refine ⟨?_, ?_, ?_⟩
    · exact hstep (frame_path j) (Or.inr (Or.inr rfl))
        (look_stab_pre_fs_frame j)
        (beq_eq_false_iff_ne.mpr
          (Ne.symm (frame_path_ne temp_clip_path rfl j)))
        (beq_eq_false_iff_ne.mpr
          (Ne.symm (frame_path_ne temp_mov_path rfl j)))
    · exact hstep (transformed_mask_path j) (Or.inl rfl)
        (look_stab_pre_fs_tmask j)
        (beq_eq_false_iff_ne.mpr
          (Ne.symm (tmask_path_ne temp_clip_path rfl j)))
        (beq_eq_false_iff_ne.mpr
          (Ne.symm (tmask_path_ne temp_mov_path rfl j)))
    · exact hstep (inpaint_mask_path j) (Or.inr (Or.inl rfl))
        (look_stab_pre_fs_imask j)
        (beq_eq_false_iff_ne.mpr
          (Ne.symm (imask_path_ne temp_clip_path rfl j)))
        (beq_eq_false_iff_ne.mpr
          (Ne.symm (imask_path_ne temp_mov_path rfl j)))

theorem stab_short_run_eq (N : Nat) (fps : String) (fOk mOk : Bool)
    (h : N ≤ smoothing_window) :
    stab_run ⟨true, true, N, fps, fOk, mOk⟩
      = (.httpError 400 "Failed to stabilize video",
         [("in.mov", FSEntry.file), ("tmp", FSEntry.dir),
          ("assets/public", FSEntry.dir), (temp_frames_dir, FSEntry.dir),
          (temp_mask_dir, FSEntry.dir)]) := by
  simp only [stab_run, api_video_stabilization_body,
    stabilize_video_ops_short N fps fOk mOk h]
  have hf : (true = false) = False := by simp
  simp only [hf, if_false]
  rfl

/-! ### Part C: the mask geometry of the stabilization loop

The loop body (video_helpers.py lines 193-231) builds an all-ones mask,
warps it by a matrix built from the per-frame corrective transform with
negated angle, inverts the result and feeds it to `cv2.inpaint`.  The
geometry is embedded over the reals; the OpenCV primitives are modelled
from their documentation, and the warp the VidStab library applies to
the frame itself, which is not part of the repository sources, is
modelled from the spec.
-/

/-- A two-row, three-column affine matrix over the reals, as produced
by `cv2.getRotationMatrix2D` and consumed by `cv2.warpAffine`. -/
structure Affine2 where
  a : ℝ
  b : ℝ
  c : ℝ
  d : ℝ
  e : ℝ
  f : ℝ

/-- `np.degrees`. -/
noncomputable def npDegrees (x : ℝ) : ℝ := x * 180 / Real.pi

/-- Modelled from the OpenCV documentation of `getRotationMatrix2D`:
for an angle in degrees (positive = counter-clockwise in image
coordinates) and a center, the matrix `[[A, B, (1-A) cx - B cy],
[-B, A, B cx + (1-A) cy]]` with `A = scale cos(angle)` and
`B = scale sin(angle)`. -/
noncomputable def getRotationMatrix2D (cx cy angleDeg scale : ℝ) : Affine2 :=
  { a := scale * Real.cos (angleDeg * Real.pi / 180)
    b := scale * Real.sin (angleDeg * Real.pi / 180)
    c := (1 - scale * Real.cos (angleDeg * Real.pi / 180)) * cx
          - scale * Real.sin (angleDeg * Real.pi / 180) * cy
    d := - (scale * Real.sin (angleDeg * Real.pi / 180))
    e := scale * Real.cos (angleDeg * Real.pi / 180)
    f := scale * Real.sin (angleDeg * Real.pi / 180) * cx
          + (1 - scale * Real.cos (angleDeg * Real.pi / 180)) * cy }

/-- The mask transform the loop builds (video_helpers.py lines
200-210): take the corrective transform `(dx, dy, da)` for the frame,
negate the angle, build
`cv2.getRotationMatrix2D(center, np.degrees(da), 1.0)` and add the
translation into the last column. -/
noncomputable def mask_rotation_matrix (dx dy da cx cy : ℝ) : Affine2 :=
  let m := getRotationMatrix2D cx cy (npDegrees (-da)) 1
  { m with c := m.c + dx, f := m.f + dy }

/-- Rotation by the angle `theta` about the point `(cx, cy)` composed
with the translation `(tx, ty)`, written as the closed-form affine
matrix in the `[[cos, -sin], [sin, cos]]` convention that every
`warpAffine` matrix of this development uses.  This is the common
yardstick against which both the mask matrix the loop builds and the
corrective frame warp of the spec are measured. -/
noncomputable def rigid_about_center (tx ty theta cx cy : ℝ) : Affine2 :=
  { a := Real.cos theta
    b := - Real.sin theta
    c := (1 - Real.cos theta) * cx + Real.sin theta * cy + tx
    d := Real.sin theta
    e := Real.cos theta
    f := - Real.sin theta * cx + (1 - Real.cos theta) * cy + ty }

/-- Modelled from the spec (section 4.2): the corrective transform the
smoothing window emits for a frame is the componentwise negation of
the low-pass-filtered jitter motion of that frame — in particular the
correction angle is the negation of the estimated jitter angle.  The
filtering itself is not tracked; its output `(jx, jy, jtheta)` is the
parameter.  This is what `stabilizer.transforms` holds, and it is what
both the engine's frame warp and the loop's mask matrix consume. -/
noncomputable def corrective_transform (jx jy jtheta : ℝ) : ℝ × ℝ × ℝ :=
  (- jx, - jy, - jtheta)

/-- Modelled from the spec (section 4.3 step 1): the corrective warp
the StabilizationEngine applies to the frame itself — the frame's
corrective transform, applied as rotation about the frame center
composed with translation.  The frame warp happens inside the VidStab
library, which is not part of the repository sources. -/
noncomputable def spec_frame_warp (jx jy jtheta cx cy : ℝ) : Affine2 :=
  rigid_about_center (corrective_transform jx jy jtheta).1
    (corrective_transform jx jy jtheta).2.1
    (corrective_transform jx jy jtheta).2.2 cx cy

/-- The matrix the loop would build without the angle negation at
video_helpers.py line 201: `cv2.getRotationMatrix2D(center,
np.degrees(da), 1.0)` with the translation added into the last
column. -/
noncomputable def unnegated_mask_matrix (dx dy da cx cy : ℝ) : Affine2 :=
  let m := getRotationMatrix2D cx cy (npDegrees da) 1
  { m with c := m.c + dx, f := m.f + dy }

/-- A point of the real plane, in pixel coordinates. -/
abbrev Pt := ℝ × ℝ

/-- The action of an affine matrix on a point. -/
noncomputable def Affine2.apply (m : Affine2) (q : Pt) : Pt :=
  (m.a * q.1 + m.b * q.2 + m.c, m.d * q.1 + m.e * q.2 + m.f)

/-- Whether a point lies inside a `w` by `h` frame. -/
def inBounds (w h : Nat) (q : Pt) : Prop :=
  0 ≤ q.1 ∧ q.1 < w ∧ 0 ≤ q.2 ∧ q.2 < h

open Classical in
/-- The fully valid mask the loop builds at frame dimensions
(`np.ones(frame_size, dtype=np.uint8) * 255`, video_helpers.py
line 193). -/
noncomputable def initial_mask (w h : Nat) (q : Pt) : ℝ :=
  if inBounds w h q then 255 else 0

open Classical in
/-- Modelled from the OpenCV documentation of `warpAffine` with
`INTER_NEAREST`, `borderMode=BORDER_CONSTANT` and `borderValue=0`
(video_helpers.py lines 213-215): a destination pixel takes the value
of a source preimage under the transform when an in-bounds preimage
exists, and the border value 0 otherwise (sub-pixel rounding is not
tracked). -/
noncomputable def warpAffine_mask (m : Affine2) (w h : Nat)
    (src : Pt → ℝ) (p : Pt) : ℝ :=
  if hq : ∃ q, inBounds w h q ∧ m.apply q = p then src hq.choose else 0

/-- The warped validity mask `transformed_mask` of the loop. -/
noncomputable def transformed_mask (dx dy da cx cy : ℝ) (w h : Nat)
    (p : Pt) : ℝ :=
  warpAffine_mask (mask_rotation_matrix dx dy da cx cy) w h
    (initial_mask w h) p

/-- The inpainting mask `inpaint_mask = 255 - transformed_mask`
(video_helpers.py line 222). -/
noncomputable def inpaint_mask (dx dy da cx cy : ℝ) (w h : Nat)
    (p : Pt) : ℝ :=
  255 - transformed_mask dx dy da cx cy w h p

open Classical in
/-- Modelled from the OpenCV documentation of `inpaint`
(video_helpers.py line 231): pixels with a nonzero inpainting mask are
replaced by synthesized content; every other pixel keeps its value. -/
noncomputable def cv_inpaint (img mask synth : Pt → ℝ) (p : Pt) : ℝ :=
  if mask p = 0 then img p else synth p

theorem mask_matrix_eq_rigid_about_center (dx dy da cx cy : ℝ) :
    mask_rotation_matrix dx dy da cx cy
      = rigid_about_center dx dy da cx cy := by
  unfold mask_rotation_matrix getRotationMatrix2D rigid_about_center npDegrees
  have hangle : -da * 180 / Real.pi * Real.pi / 180 = -da := by
    field_simp
    ring
  rw [hangle]
  simp only [Real.cos_neg, Real.sin_neg]
  simp only [Affine2.mk.injEq]
  refine ⟨by ring, by ring, by ring, by ring, by ring, by ring⟩

theorem unnegated_mask_matrix_eq (dx dy da cx cy : ℝ) :
    unnegated_mask_matrix dx dy da cx cy
      = rigid_about_center dx dy (-da) cx cy := by
  unfold unnegated_mask_matrix getRotationMatrix2D rigid_about_center npDegrees
  have hangle : da * 180 / Real.pi * Real.pi / 180 = da := by
    field_simp
  rw [hangle]
  simp only [Real.cos_neg, Real.sin_neg]
  simp only [Affine2.mk.injEq]
  refine ⟨by ring, by ring, by ring, by ring, by ring, by ring⟩

theorem unnegated_mask_matrix_ne (dx dy da cx cy : ℝ)
    (hda : Real.sin da ≠ 0) :
    unnegated_mask_matrix dx dy da cx cy
      ≠ rigid_about_center dx dy da cx cy := by
  rw [unnegated_mask_matrix_eq]
  intro hEq
  have hb := congrArg Affine2.b hEq
  simp only [rigid_about_center, Real.sin_neg, neg_neg] at hb
  exact hda (by linarith)

theorem transformed_mask_dichotomy (dx dy da cx cy : ℝ) (w h : Nat)
    (p : Pt) :
    transformed_mask dx dy da cx cy w h p = 255
      ∨ transformed_mask dx dy da cx cy w h p = 0 := by
  unfold transformed_mask warpAffine_mask
  split
  next hq =>
    left
    unfold initial_mask
    rw [if_pos hq.choose_spec.1]
  next hq =>
    right
    rfl

theorem transformed_mask_eq_zero_of_exposed (dx dy da cx cy : ℝ)
    (w h : Nat) (p : Pt)
    (hq : ¬ ∃ q, inBounds w h q
      ∧ (mask_rotation_matrix dx dy da cx cy).apply q = p) :
    transformed_mask dx dy da cx cy w h p = 0 := by
  unfold transformed_mask warpAffine_mask
  split
  next hq2 => exact absurd hq2 hq
  next => rfl

theorem cv_inpaint_keeps_valid (dx dy da cx cy : ℝ) (w h : Nat)
    (img synth : Pt → ℝ) (p : Pt)
    (hv : transformed_mask dx dy da cx cy w h p ≠ 0) :
    cv_inpaint img (inpaint_mask dx dy da cx cy w h) synth p = img p := by
  have h255 : transformed_mask dx dy da cx cy w h p = 255 := by
    rcases transformed_mask_dichotomy dx dy da cx cy w h p with h1 | h1
    · exact h1
    · exact absurd h1 hv
  unfold cv_inpaint inpaint_mask
  rw [h255]
  norm_num

theorem cv_inpaint_fills_exposed (dx dy da cx cy : ℝ) (w h : Nat)
    (img synth : Pt → ℝ) (p : Pt)
    (hz : transformed_mask dx dy da cx cy w h p = 0) :
    cv_inpaint img (inpaint_mask dx dy da cx cy w h) synth p = synth p := by
  unfold cv_inpaint inpaint_mask
  rw [hz]
  norm_num

/-! ### The claims -/

/-- The ffmpeg command lines contained in a trace, in order. -/
def ffmpeg_cmds_of (ops : List FSOp) : List (List String) :=
  ops.filterMap (fun op => match op with
    | .ffmpegRun cmd _ _ => some cmd
    | _ => none)

/-- The property Claim C3 asserts of the stabilization remux: some
encode command of the pipeline takes a second input (the audio track)
and trims with `-shortest`. -/
def stab_remuxes_audio (N : Nat) (fps : String) : Prop :=
  ∃ cmd ∈ ffmpeg_cmds_of
      (stabilize_video_ops N fps true true final_output_path).1,
    2 ≤ argCount cmd "-i" ∧ "-shortest" ∈ cmd

/-- The property Claim C4 asserts of the stabilization pipeline on a
source without audio: some command of the pipeline synthesizes a silent
track or muxes a second input. -/
def stab_synthesizes_audio (N : Nat) (fps : String) : Prop :=
  ∃ cmd ∈ ffmpeg_cmds_of
      (stabilize_video_ops N fps true true final_output_path).1,
    "anullsrc=channel_layout=stereo:sample_rate=48000" ∈ cmd
      ∨ 2 ≤ argCount cmd "-i"

/-- The property Claim C6 asserts: the artifact appears at the final
path only through a rename whose source lies inside the job's temp
workspace (under `tmp/`), never through a direct write at the final
path. -/
def atomic_publish (ops : List FSOp) (finalP : String) : Prop :=
  ∀ op ∈ ops, op.createsKey finalP = true →
    ∃ src, op = FSOp.renameOp src finalP ∧ pyStartsWith src "tmp/" = true

/-- Claim C1, as stated, is false at a 31-frame input: with the
smoothing window of 30 the loop saves 30 frames, not 31 - 30 = 1,
because the stabilizer keeps emitting buffered frames after the input
is exhausted and the loop saves them. -/
theorem c1_counterexample :
    saved_frame_count 31 = 30
      ∧ ¬ (saved_frame_count 31 = 31 - smoothing_window) := by
  constructor
  · decide
  · decide

/-- Claim C1 (amended): for `frameCount > W` the pipeline emits exactly
`frameCount - 1` stabilized frames — the drain of the smoothing buffer
emits the delayed frames too, and only the final source frame is
dropped by the transform-index guard.  The emitted frames are source
frames `0 .. frameCount - 2` in order, so the `j`-th output frame
carries the timestamp of its original source frame `j`. -/
theorem c1_amended (N : Nat) (h : smoothing_window < N) :
    saved_frame_count N = N - 1
    ∧ saved_sources N = List.range (N - 1)
    ∧ ∀ (fps : ℚ) (j : Nat), j < N - 1 →
        frame_timestamp fps ((saved_sources N).getD j 0)
          = frame_timestamp fps j := by
  refine ⟨saved_frame_count_eq N h, saved_sources_eq N h, ?_⟩
  intro fps j hj
  rw [saved_sources_eq N h]
  congr 1
  rw [List.getD_eq_getElem?_getD, List.getElem?_range hj]
  rfl

/-- Witness for the amended Claim C1 at a 31-frame input. -/
theorem c1_amended_witness :
    smoothing_window < 31 ∧ saved_frame_count 31 = 31 - 1 :=
  ⟨by decide, (c1_amended 31 (by decide)).1⟩

/-- Claim C2, as stated, is false at a 5-frame input: the job fails
and writes no artifact, but the `tmp/frames` directory created by the
job is left on disk, so a temporary workspace remains. -/
theorem c2_counterexample :
    FS.look (stab_run ⟨true, true, 5, "30.0", true, true⟩).2 temp_frames_dir
        = some FSEntry.dir
    ∧ ¬ (FS.look (stab_run ⟨true, true, 5, "30.0", true, true⟩).2
          temp_frames_dir = none) := by
  have h := stab_short_run_eq 5 "30.0" true true (by decide)
  rw [h]
  exact ⟨by decide, by decide⟩

/-- Claim C2 (amended): for `frameCount ≤ W` the loop saves zero
frames and the job fails with the generic HTTP 400 "Failed to
stabilize video" (the code has no typed InsufficientFrames error); no
artifact is written at the public output path and the temp clip and
temp MOV are removed, but the `tmp/frames` and `tmp/mask` directories
created by the job remain on disk. -/
theorem c2_amended (N : Nat) (fps : String) (framesOk movOk : Bool)
    (h : N ≤ smoothing_window) :
    saved_frame_count N = 0
    ∧ stab_run ⟨true, true, N, fps, framesOk, movOk⟩
        = (.httpError 400 "Failed to stabilize video",
           [("in.mov", FSEntry.file), ("tmp", FSEntry.dir),
            ("assets/public", FSEntry.dir), (temp_frames_dir, FSEntry.dir),
            (temp_mask_dir, FSEntry.dir)])
    ∧ FS.look (stab_run ⟨true, true, N, fps, framesOk, movOk⟩).2
        final_output_path = none
    ∧ FS.look (stab_run ⟨true, true, N, fps, framesOk, movOk⟩).2
        temp_clip_path = none
    ∧ FS.look (stab_run ⟨true, true, N, fps, framesOk, movOk⟩).2
        temp_mov_path = none
    ∧ FS.look (stab_run ⟨true, true, N, fps, framesOk, movOk⟩).2
        temp_frames_dir = some FSEntry.dir
    ∧ FS.look (stab_run ⟨true, true, N, fps, framesOk, movOk⟩).2
        temp_mask_dir = some FSEntry.dir := by
  have he := stab_short_run_eq N fps framesOk movOk h
  refine ⟨saved_frame_count_of_le N h, he, ?_, ?_, ?_, ?_, ?_⟩
  · rw [he]; decide
  · rw [he]; decide
  · rw [he]; decide
  · rw [he]; decide
  · rw [he]; decide

/-- Witness for the amended Claim C2 at a 5-frame input. -/
theorem c2_amended_witness :
    5 ≤ smoothing_window ∧ saved_frame_count 5 = 0
    ∧ FS.look (stab_run ⟨true, true, 5, "30.0", true, true⟩).2 temp_frames_dir
        = some FSEntry.dir :=
  ⟨by decide, (c2_amended 5 "30.0" true true (by decide)).1,
   (c2_amended 5 "30.0" true true (by decide)).2.2.2.2.2.1⟩

/-- Claim C3, as stated, is false: no encode command of the
stabilization pipeline takes an audio input or trims with `-shortest`
(and the pipeline does run encode commands). -/
theorem c3_counterexample :
    ¬ stab_remuxes_audio 40 "30.0"
    ∧ ffmpeg_cmds_of
        (stabilize_video_ops 40 "30.0" true true final_output_path).1 ≠ [] := by
  constructor
  · unfold stab_remuxes_audio
    decide
  · decide

/-- Claim C3 (amended): the stabilization pipeline encodes the saved
frames alone — its two ffmpeg commands each take a single `-i` input
and no `-shortest` flag, so no audio track is remuxed and nothing is
trimmed; the remux of frames with the audio track under `-shortest`
exists only in `combine_frames_to_video_with_audio`, which the other
video-effect endpoints use. -/
theorem c3_amended :
    ffmpeg_cmds_of
        (stabilize_video_ops 40 "30.0" true true final_output_path).1
      = [stab_frames_cmd "30.0" stab_temp_output,
         stab_mov_cmd stab_temp_output final_output_path]
    ∧ argCount (stab_frames_cmd "30.0" stab_temp_output) "-i" = 1
    ∧ argCount (stab_mov_cmd stab_temp_output final_output_path) "-i" = 1
    ∧ ¬ ("-shortest" ∈ stab_mov_cmd stab_temp_output final_output_path)
    ∧ ¬ ("-shortest" ∈ stab_frames_cmd "30.0" stab_temp_output)
    ∧ argCount (combine_frames_to_video_with_audio_cmd "./tmp/processed"
        "./tmp/audio.aac" "assets/public/out.mov" "30.0") "-i" = 2
    ∧ "-shortest" ∈ combine_frames_to_video_with_audio_cmd "./tmp/processed"
        "./tmp/audio.aac" "assets/public/out.mov" "30.0"
    ∧ "./tmp/audio.aac" ∈ combine_frames_to_video_with_audio_cmd
        "./tmp/processed" "./tmp/audio.aac" "assets/public/out.mov" "30.0" := by
  decide

/-- Claim C4, as stated of the stabilization pipeline, is false: no
command of the pipeline synthesizes silence or muxes a second input, so
an input without an audio stream yields an output with no audio track
at all. -/
theorem c4_counterexample :
    ¬ stab_synthesizes_audio 40 "30.0"
    ∧ ¬ (∃ cmd ∈ ffmpeg_cmds_of
          (stabilize_video_ops 40 "30.0" true true final_output_path).1,
        "anullsrc=channel_layout=stereo:sample_rate=48000" ∈ cmd) := by
  constructor
  · unfold stab_synthesizes_audio
    decide
  · decide

/-- Claim C4 (amended): in the remove-bg, color-grading and
portrait-effect pipelines, an input without an audio stream gets a
synthesized silent track whose `-t` duration argument is exactly the
probed container duration, and the remux runs under `-shortest`, so in
the produced file the audio stream duration equals the video stream
duration (both are the shorter of the two inputs); the stabilization
pipeline itself never touches audio. -/
theorem c4_amended (d v f a : String) (vDur aDur : ℚ) :
    extract_frames_and_audio_cmds false d v f a
      = [extract_frames_cmd v f, silent_audio_cmd d a]
    ∧ (silent_audio_cmd d a).getD 5 "" = "-t"
    ∧ (silent_audio_cmd d a).getD 6 "" = d
    ∧ "-shortest" ∈ combine_frames_to_video_with_audio_cmd f a
        ("assets/public/" ++ "out.mov") "30.0"
    ∧ (mux_shortest_durations vDur aDur).1
        = (mux_shortest_durations vDur aDur).2
    ∧ (mux_shortest_durations vDur aDur).2 = min vDur aDur := by
  refine ⟨rfl, rfl, rfl, ?_, rfl, rfl⟩
  simp [combine_frames_to_video_with_audio_cmd]

/-- Claim C5, as stated, is false: after an encode failure (the
frames-to-video ffmpeg invocation fails) the frame and mask files the
job wrote are still on disk when the handler returns. -/
theorem c5_counterexample :
    FS.look (stab_run ⟨true, true, 40, "30.0", false, true⟩).2 (frame_path 0)
        = some FSEntry.file
    ∧ ¬ (FS.look (stab_run ⟨true, true, 40, "30.0", false, true⟩).2
          (frame_path 0) = none) := by
  have h := (stab_encode_failure_facts 40 "30.0" true (by decide)).2.1
  refine ⟨h, ?_⟩
  intro hc
  rw [h] at hc
  cases hc

/-- Claim C5 (amended): on a successful run every temporary file of the
job (temp clip, temp MOV, temp AVI, every frame and mask file) is gone
and the artifact exists at the public path — though the shared `tmp`
directory persists by design; on an encode failure the temp clip and
MOV are removed but every written frame and mask file and the
`tmp/frames` and `tmp/mask` directories remain on disk, and no
artifact exists at the public path. -/
theorem c5_amended (N : Nat) (fps : String) (h : smoothing_window < N) :
    ((stab_run ⟨true, true, N, fps, true, true⟩).1
        = .ok ("/api/assets/public/" ++ final_output_name) final_output_path
      ∧ FS.look (stab_run ⟨true, true, N, fps, true, true⟩).2 final_output_path
          = some .file
      ∧ FS.look (stab_run ⟨true, true, N, fps, true, true⟩).2 temp_clip_path
          = none
      ∧ FS.look (stab_run ⟨true, true, N, fps, true, true⟩).2 temp_mov_path
          = none
      ∧ FS.look (stab_run ⟨true, true, N, fps, true, true⟩).2 stab_temp_output
          = none
      ∧ (∀ j, j < N - 1 →
          FS.look (stab_run ⟨true, true, N, fps, true, true⟩).2 (frame_path j)
            = none
          ∧ FS.look (stab_run ⟨true, true, N, fps, true, true⟩).2
              (transformed_mask_path j) = none
          ∧ FS.look (stab_run ⟨true, true, N, fps, true, true⟩).2
              (inpaint_mask_path j) = none))
    ∧ ((stab_run ⟨true, true, N, fps, false, true⟩).1
        = .httpError 400 "Failed to stabilize video"
      ∧ FS.look (stab_run ⟨true, true, N, fps, false, true⟩).2 temp_clip_path
          = none
      ∧ FS.look (stab_run ⟨true, true, N, fps, false, true⟩).2 temp_mov_path
          = none
      ∧ (∀ j, j < N - 1 →
          FS.look (stab_run ⟨true, true, N, fps, false, true⟩).2 (frame_path j)
            = some .file
          ∧ FS.look (stab_run ⟨true, true, N, fps, false, true⟩).2
              (transformed_mask_path j) = some .file
          ∧ FS.look (stab_run ⟨true, true, N, fps, false, true⟩).2
              (inpaint_mask_path j) = some .file)
      ∧ FS.look (stab_run ⟨true, true, N, fps, false, true⟩).2 final_output_path
          = none
      ∧ FS.look (stab_run ⟨true, true, N, fps, false, true⟩).2 temp_frames_dir
          = some .dir
      ∧ FS.look (stab_run ⟨true, true, N, fps, false, true⟩).2 temp_mask_dir
          = some .dir) := by
  have hold := stab_encode_failure_facts N fps true h
  have hnew := stab_encode_failure_files_remain N fps true h
  exact ⟨stab_success_facts N fps h,
    hold.1, hnew.1, hnew.2.1, hnew.2.2, hold.2.2.2.2.1,
    hold.2.2.2.2.2.1, hold.2.2.2.2.2.2⟩

/-- Witness for the amended Claim C5 at a 40-frame input. -/
theorem c5_amended_witness :
    smoothing_window < 40
    ∧ FS.look (stab_run ⟨true, true, 40, "30.0", true, true⟩).2 temp_clip_path
        = none
    ∧ FS.look (stab_run ⟨true, true, 40, "30.0", false, true⟩).2 (frame_path 0)
        = some FSEntry.file :=
  ⟨by decide, (c5_amended 40 "30.0" (by decide)).1.2.2.1,
   ((c5_amended 40 "30.0" (by decide)).2.2.2.2.1 0 (by decide)).1⟩

/-- Claim C6, as stated, is false: the artifact is created at the final
public path directly by an encode invocation, not by a rename from a
workspace path, and the `_temp.avi` intermediate lives in the public
directory rather than the job workspace. -/
theorem c6_counterexample :
    ¬ atomic_publish
        (stabilize_video_ops 40 "30.0" true true final_output_path).1
        final_output_path
    ∧ pyStartsWith stab_temp_output "assets/public/" = true
    ∧ pyStartsWith stab_temp_output "tmp/" = false := by
  refine ⟨?_, rfl, rfl⟩
  intro hatomic
  have hmem : FSOp.ffmpegRun (stab_mov_cmd stab_temp_output final_output_path)
      final_output_path true
      ∈ (stabilize_video_ops 40 "30.0" true true final_output_path).1 := by
    decide
  obtain ⟨src, heq, _⟩ := hatomic _ hmem (by rfl)
  exact FSOp.noConfusion heq

/-- Claim C6 (amended): the MOV-conversion encode writes the artifact
directly at the public output path, the intermediate AVI is created in
the public directory under the `_temp.avi` name, and the success trace
contains no rename at all — there is no atomic temp-then-move
publish. -/
theorem c6_amended (N : Nat) (fps : String) (h : smoothing_window < N) :
    stab_temp_output = "assets/public/out_temp.avi"
    ∧ pyStartsWith stab_temp_output "assets/public/" = true
    ∧ (FSOp.ffmpegRun (stab_mov_cmd stab_temp_output final_output_path)
        final_output_path true
        ∈ (stabilize_video_ops N fps true true final_output_path).1)
    ∧ ∀ src dst, ¬ (FSOp.renameOp src dst
        ∈ (stabilize_video_ops N fps true true final_output_path).1) := by
  rw [stabilize_video_ops_success N fps h]
  refine ⟨by decide, rfl, ?_, ?_⟩
  · show _ ∈ ((([FSOp.makedirs temp_frames_dir, FSOp.makedirs temp_mask_dir]
        ++ frames_write_ops (N - 1)
        ++ [FSOp.ffmpegRun (stab_frames_cmd fps stab_temp_output)
              stab_temp_output true]
        ++ [FSOp.ffmpegRun (stab_mov_cmd stab_temp_output final_output_path)
              final_output_path true, FSOp.osRemoveOp stab_temp_output]
        ++ frame_cleanup_ops (N - 1) ++ mask_cleanup_ops (N - 1)
        ++ [FSOp.rmdirIfEmpty temp_frames_dir,
            FSOp.rmdirIfEmpty temp_mask_dir]), true) :
        List FSOp × Bool).1
    refine List.mem_append_left _ ?_
    refine List.mem_append_left _ ?_
    refine List.mem_append_left _ ?_
    refine List.mem_append_right _ ?_
    exact List.mem_cons_self _ _
  · intro src dst hmem
    simp only [List.mem_append] at hmem
    rcases hmem with ((((((hm | hm) | hm) | hm) | hm) | hm) | hm)
    · simp only [List.mem_cons, List.not_mem_nil, or_false] at hm
      rcases hm with hm | hm
      · exact FSOp.noConfusion hm
      · exact FSOp.noConfusion hm
    · obtain ⟨j, _, hc⟩ := mem_frames_write_ops hm
      rcases hc with hc | hc | hc
      · exact FSOp.noConfusion hc
      · exact FSOp.noConfusion hc
      · exact FSOp.noConfusion hc
    · simp only [List.mem_singleton] at hm
      exact FSOp.noConfusion hm
    · simp only [List.mem_cons, List.not_mem_nil, or_false] at hm
      rcases hm with hm | hm
      · exact FSOp.noConfusion hm
      · exact FSOp.noConfusion hm
    · obtain ⟨j, _, hc⟩ := mem_frame_cleanup_ops hm
      exact FSOp.noConfusion hc
    · obtain ⟨j, _, hc⟩ := mem_mask_cleanup_ops hm
      rcases hc with hc | hc
      · exact FSOp.noConfusion hc
      · exact FSOp.noConfusion hc
    · simp only [List.mem_cons, List.not_mem_nil, or_false] at hm
      rcases hm with hm | hm
      · exact FSOp.noConfusion hm
      · exact FSOp.noConfusion hm

/-- Witness for the amended Claim C6 at a 40-frame input. -/
theorem c6_amended_witness :
    smoothing_window < 40
    ∧ stab_temp_output = "assets/public/out_temp.avi"
    ∧ (FSOp.ffmpegRun (stab_mov_cmd stab_temp_output final_output_path)
        final_output_path true
        ∈ (stabilize_video_ops 40 "30.0" true true final_output_path).1) :=
  ⟨by decide, (c6_amended 40 "30.0" (by decide)).1,
   (c6_amended 40 "30.0" (by decide)).2.2.1⟩

/-- Claim C7: the per-frame validity mask starts fully valid at frame
dimensions; the matrix the loop warps it with, built from a transform
`(dx, dy, da)`, is exactly rotation by `da` about the frame center
composed with the translation `(dx, dy)` — the negation at line 201
cancels against the counter-clockwise-positive degree convention of
`getRotationMatrix2D`, and that negation is load-bearing: without it
the mask would rotate by the opposite angle whenever the angle has a
nonzero sine; fed the frame's corrective transform, whose angle is the
negation of the estimated jitter angle, the mask matrix is the
identical affine map as the spec's corrective frame warp; pixels with
no in-bounds preimage under the mask warp become 0 in the warped mask;
inpainting replaces exactly the 0-mask pixels and never touches a
pixel whose mask is valid. -/
theorem c7_mask_and_inpaint (jx jy jtheta dx dy da cx cy : ℝ) (w h : Nat)
    (img synth : Pt → ℝ) (p : Pt) :
    (inBounds w h p → initial_mask w h p = 255)
    ∧ (¬ inBounds w h p → initial_mask w h p = 0)
    ∧ mask_rotation_matrix dx dy da cx cy = rigid_about_center dx dy da cx cy
    ∧ (Real.sin da ≠ 0 →
        unnegated_mask_matrix dx dy da cx cy
          ≠ rigid_about_center dx dy da cx cy)
    ∧ (corrective_transform jx jy jtheta).2.2 = - jtheta
    ∧ mask_rotation_matrix (corrective_transform jx jy jtheta).1
        (corrective_transform jx jy jtheta).2.1
        (corrective_transform jx jy jtheta).2.2 cx cy
        = spec_frame_warp jx jy jtheta cx cy
    ∧ ((¬ ∃ q, inBounds w h q
          ∧ (mask_rotation_matrix dx dy da cx cy).apply q = p) →
        transformed_mask dx dy da cx cy w h p = 0)
    ∧ (transformed_mask dx dy da cx cy w h p ≠ 0 →
        cv_inpaint img (inpaint_mask dx dy da cx cy w h) synth p = img p)
    ∧ (transformed_mask dx dy da cx cy w h p = 0 →
        cv_inpaint img (inpaint_mask dx dy da cx cy w h) synth p = synth p) := by
  refine ⟨?_, ?_, mask_matrix_eq_rigid_about_center dx dy da cx cy,
    unnegated_mask_matrix_ne dx dy da cx cy, rfl,
    mask_matrix_eq_rigid_about_center _ _ _ cx cy,
    transformed_mask_eq_zero_of_exposed dx dy da cx cy w h p,
    cv_inpaint_keeps_valid dx dy da cx cy w h img synth p,
    cv_inpaint_fills_exposed dx dy da cx cy w h img synth p⟩
  · intro hp
    unfold initial_mask
    exact if_pos hp
  · intro hp
    unfold initial_mask
    exact if_neg hp

/-- Witness for Claim C7: a frame of size 0 exposes every pixel, the
warped mask is 0 there and inpainting synthesizes the pixel. -/
theorem c7_witness :
    transformed_mask 1 2 3 4 5 0 0 (9, 9) = 0
    ∧ cv_inpaint (fun _ => 5) (inpaint_mask 1 2 3 4 5 0 0) (fun _ => 7) (9, 9)
        = 7 := by
  have hq : ¬ ∃ q, inBounds 0 0 q
      ∧ (mask_rotation_matrix 1 2 3 4 5).apply q = ((9 : ℝ), (9 : ℝ)) := by
    rintro ⟨q, ⟨h1, h2, _⟩, _⟩
    norm_num at h2
    linarith
  have hz := (c7_mask_and_inpaint 0 0 0 1 2 3 4 5 0 0 (fun _ => 5)
    (fun _ => 7) (9, 9)).2.2.2.2.2.2.1 hq
  have hs := (c7_mask_and_inpaint 0 0 0 1 2 3 4 5 0 0 (fun _ => 5)
    (fun _ => 7) (9, 9)).2.2.2.2.2.2.2.2 hz
  exact ⟨hz, hs⟩

/-- Claim C8, as stated, is false for the stabilization endpoint: a
request whose path names no existing file is not rejected by path
validation with HTTP 400 — the handler never validates the path and
instead raises AttributeError before any processing, which surfaces as
an internal server error. -/
theorem c8_counterexample :
    (api_video_stabilization ⟨"missing.mov"⟩
        ⟨true, true, 40, "30.0", true, true⟩ []).1
      = .serverError (.attributeError "time_stamp")
    ∧ ¬ ((api_video_stabilization ⟨"missing.mov"⟩
        ⟨true, true, 40, "30.0", true, true⟩ []).1
      = .httpError 400 ("Video file not found: " ++ "missing.mov"))
    ∧ ¬ ((api_video_stabilization ⟨"missing.mov"⟩
        ⟨true, true, 40, "30.0", true, true⟩ []).1
      = .httpError 400 ("Path is not a file: " ++ "missing.mov")) := by
  refine ⟨rfl, ?_, ?_⟩
  · decide
  · decide

/-- Claim C8 (amended): the remove-bg, color-grading and
portrait-effect handlers validate the video path first and fail with
HTTP 400 "Video file not found" before touching the filesystem; the
stabilization handler performs no path validation at all and fails
with the time-stamp AttributeError (an internal server error) before
any processing, whatever the path. -/
theorem c8_amended (fs : FS) (p : String) (env : EffectEnv)
    (senv : StabEnv) (req : VideoStabilizationRequest)
    (h : FS.pathExists fs p = false) :
    api_video_background_removal p env fs
      = (.httpError 400 ("Video file not found: " ++ p), fs)
    ∧ api_video_color_grading p env fs
      = (.httpError 400 ("Video file not found: " ++ p), fs)
    ∧ api_video_portrait_effect p env fs
      = (.httpError 400 ("Video file not found: " ++ p), fs)
    ∧ api_video_stabilization req senv fs
      = (.serverError (.attributeError "time_stamp"), fs) := by
  have hv : validate_video_path fs p
      = some (.httpError 400 ("Video file not found: " ++ p)) := by
    unfold validate_video_path
    rw [h]
    simp
  refine ⟨?_, ?_, ?_, rfl⟩
  · unfold api_video_background_removal
    rw [hv]
  · unfold api_video_color_grading
    rw [hv]
  · unfold api_video_portrait_effect
    rw [hv]

/-- Witness for the amended Claim C8 on an empty filesystem. -/
theorem c8_amended_witness :
    FS.pathExists [] "missing.mov" = false
    ∧ api_video_background_removal "missing.mov"
        ⟨true, true, "3.0", true, "30"⟩ []
      = (.httpError 400 ("Video file not found: " ++ "missing.mov"), []) :=
  ⟨by decide, (c8_amended [] "missing.mov" ⟨true, true, "3.0", true, "30"⟩
      ⟨true, true, 40, "30.0", true, true⟩ ⟨"missing.mov"⟩ (by decide)).1⟩

/-- Claim C9: the `VideoStabilizationRequest` model defines no
`time_stamp` field, the handler reads it on entry outside its `try`
block, so every call raises AttributeError before any processing, the
endpoint surfaces an internal server error and can never return a
success response. -/
theorem c9_endpoint_always_attribute_error
    (req : VideoStabilizationRequest) (env : StabEnv) (fs : FS) :
    ¬ ("time_stamp" ∈ videoStabilizationRequestFields)
    ∧ api_video_stabilization req env fs
        = (.serverError (.attributeError "time_stamp"), fs)
    ∧ ∀ l a, ¬ ((api_video_stabilization req env fs).1 = .ok l a) := by
  refine ⟨by decide, rfl, ?_⟩
  intro l a hc
  have hr : (api_video_stabilization req env fs).1
      = .serverError (.attributeError "time_stamp") := rfl
  rw [hr] at hc
  exact ApiResult.noConfusion hc

/-- Witness for Claim C9 on a well-formed request over an existing
file. -/
theorem c9_witness :
    api_video_stabilization ⟨"v.mov"⟩ ⟨true, true, 40, "30.0", true, true⟩
        [("v.mov", FSEntry.file)]
      = (.serverError (.attributeError "time_stamp"),
         [("v.mov", FSEntry.file)]) :=
  (c9_endpoint_always_attribute_error ⟨"v.mov"⟩
    ⟨true, true, 40, "30.0", true, true⟩ [("v.mov", FSEntry.file)]).2.1

/-- Claim C10: `cleanup_temp_files` never lets an exception escape (the
only raising call, `os.remove`, is wrapped in `try`/`except`), deletes
exactly those arguments that are existing regular files, and when the
argument is a directory — as the remove-bg, color-grading and
portrait-effect handlers pass their `./tmp` — the removal fails, the
exception is swallowed, and the directory and all of its contents are
untouched. -/
theorem c10_cleanup_semantics (fs : FS) (paths : List String)
    (d q : String) (hdir : FS.look fs d = some FSEntry.dir) :
    cleanup_temp_files fs paths = .ok (paths.foldl cleanup_step fs)
    ∧ (∀ r, FS.look (paths.foldl cleanup_step fs) r
        = if r ∈ paths ∧ FS.look fs r = some .file then none
          else FS.look fs r)
    ∧ FS.look (List.foldl cleanup_step fs [d]) q = FS.look fs q
    ∧ temp_dir_effects = "./tmp"
    ∧ FS.look (api_video_background_removal "v.mov"
        ⟨false, true, "3.0", true, "30"⟩ [("v.mov", FSEntry.file)]).2
        temp_dir_effects = some FSEntry.dir := by
  refine ⟨rfl, fun r => look_foldl_cleanup paths fs r, ?_, rfl, by decide⟩
  rw [look_foldl_cleanup [d] fs q]
  by_cases hq : q = d
  · subst hq
    simp [hdir]
  · have : ¬ (q ∈ [d]) := by
      simp [hq]
    simp [this]
    intro hc
    exact absurd hc hq

/-- Witness for Claim C10: cleaning up a directory argument leaves the
directory and a file inside it untouched. -/
theorem c10_witness :
    FS.look [("./tmp", FSEntry.dir), ("./tmp/frames/f.png", FSEntry.file)]
        "./tmp" = some FSEntry.dir
    ∧ FS.look (List.foldl cleanup_step
        [("./tmp", FSEntry.dir), ("./tmp/frames/f.png", FSEntry.file)]
        ["./tmp"]) "./tmp/frames/f.png"
      = FS.look [("./tmp", FSEntry.dir), ("./tmp/frames/f.png", FSEntry.file)]
          "./tmp/frames/f.png" :=
  ⟨by decide, (c10_cleanup_semantics
      [("./tmp", FSEntry.dir), ("./tmp/frames/f.png", FSEntry.file)]
      ["x"] "./tmp" "./tmp/frames/f.png" (by decide)).2.2.1⟩
